import Mathlib

/-!
The fetch traversal of `cacheGeneAction` in genecache.

A shallow embedding of `main.go`.  The network is an oracle `net` giving the
result of the n-th `http.Get` of the run for the URL it is asked; the effects
of the function (GETs, log entries, body decodes, body closes) are collected
in a trace, and the response bodies that are open are explicit state.
-/

namespace GeneCache

/-! ## Data model -/

/-- One entry of the `label` array of a panel item. -/
structure PanelLabel where
  Text : String
deriving DecidableEq, Repr

/-- One entry of `PageResponse.Items`. -/
structure PanelItem where
  Key : String
  Label : List PanelLabel
  Source : String
deriving DecidableEq, Repr

/-- The Go struct `PageResponse`. -/
structure PageResponse where
  Items : List PanelItem
  Layout : String
deriving DecidableEq, Repr

/-- What `json.NewDecoder(resp.Body).Decode(&presp)` makes of a response body:
an error, or the decoded slice `presp`. -/
inductive Body where
  | invalid (msg : String)
  | pages (presp : List PageResponse)
deriving DecidableEq, Repr

/-- Result of one `http.Get`: a transport error (`err != nil`), or a response
with its status code and body. -/
inductive GetResult where
  | err (msg : String)
  | resp (StatusCode : Nat) (body : Body)
deriving DecidableEq, Repr

/-- The resource a GET is issued for. -/
inductive Kind where
  | GeneDetail
  | ProteinDetail
  | PanelSource
  | References
deriving DecidableEq, Repr

/-- Logrus levels used by `cacheGeneAction`. -/
inductive Level where
  | debug
  | info
  | error
deriving DecidableEq, Repr

/-- One log entry: the level, the fields given to `WithFields`, the message. -/
structure Event where
  level : Level
  id : String
  url : Option String
  kind : String
  statusCode : Option Nat
  msg : String
deriving DecidableEq, Repr

/-- Observable effects of `cacheGeneAction`, in the order they happen.  A
response body is named by the number of the GET that opened it. -/
inductive Step where
  | get (kind : Kind) (url : String) (res : GetResult)
  | log (e : Event)
  | decode (body : Nat)
  | close (body : Nat)
  | closeFile
deriving DecidableEq, Repr

/-- Run-time panics of the Go code, with the line of `main.go` that raises them. -/
inductive Panic where
  | indexOutOfRange (srcLine index length : Nat)
  | nilDereference (srcLine : Nat)
deriving DecidableEq, Repr

/-- The value built by `cli.NewExitError(msg, code)`. -/
structure ExitError where
  code : Nat
  msg : String
deriving DecidableEq, Repr

/-- Why the scanning loop was left early: a `return` of an exit error, or a panic. -/
inductive Halt where
  | exit (e : ExitError)
  | panic (p : Panic)
deriving DecidableEq, Repr

/-- How `cacheGeneAction` ends: it returns (nil or an exit error), or it panics. -/
inductive Outcome where
  | returned (err : Option ExitError)
  | panicked (p : Panic)
deriving DecidableEq, Repr

/-- State threaded through the function body. -/
structure St where
  trace : List Step
  nget : Nat
  openBodies : List Nat
  deferred : List Nat
deriving DecidableEq, Repr

/-- What the caller of `cacheGeneAction` can observe of one call. -/
structure Run where
  trace : List Step
  outcome : Outcome
  openBodies : List Nat
deriving DecidableEq, Repr

/-- The part of `cli.Context` and of the environment that `cacheGeneAction` reads. -/
structure Context where
  logFileErr : Option String
  input : String
  openErr : Option String
  url : String
  lines : List String
  scanErr : Option String
deriving DecidableEq, Repr

/-- The network: result of the n-th `http.Get` of the run when asked for a URL. -/
abbrev Net := Nat → String → GetResult

/-! ## State operations -/

/-- Initial state of a call. -/
def St.init : St := ⟨[], 0, [], []⟩

/-- Effect of `http.Get(url)` returning `res`: a response opens its body. -/
def St.get (st : St) (kind : Kind) (url : String) (res : GetResult) : St :=
  { st with
    trace := st.trace ++ [Step.get kind url res]
    nget := st.nget + 1
    openBodies :=
      match res with
      | GetResult.err _ => st.openBodies
      | GetResult.resp _ _ => st.openBodies ++ [st.nget] }

/-- Effect of one logger call. -/
def St.log (st : St) (e : Event) : St :=
  { st with trace := st.trace ++ [Step.log e] }

/-- Effect of `defer resp.Body.Close()` for the given body: the close is
postponed until the function is left. -/
def St.deferClose (st : St) (body : Nat) : St :=
  { st with deferred := body :: st.deferred }

/-- Effect of reading a body with the JSON decoder. -/
def St.decode (st : St) (body : Nat) : St :=
  { st with trace := st.trace ++ [Step.decode body] }

/-- Effect of `resp.Body.Close()`. -/
def St.close (st : St) (body : Nat) : St :=
  { st with
    trace := st.trace ++ [Step.close body]
    openBodies := st.openBodies.filter (fun b => b != body) }

/-! ## Log entries -/

/-- Entry logged when `http.Get` returns an error. -/
def fetchError (geneId url msg : String) : Event :=
  ⟨Level.error, geneId, some url, "fetch", none, msg⟩

/-- Entry logged when the status code is not 200. -/
def httpError (geneId url : String) (code : Nat) : Event :=
  ⟨Level.error, geneId, some url, "http", some code, "http error in fetching url"⟩

/-- Entry logged after a GET with status 200. -/
def fetchSuccess (geneId url : String) : Event :=
  ⟨Level.debug, geneId, some url, "caching", none, "success in fetching and caching url"⟩

/-- Entry logged when the body of a top-level response does not decode. -/
def decodeError (geneId url msg : String) : Event :=
  ⟨Level.error, geneId, some url, "decoding", none, msg⟩

/-- Entry logged once per gene after its references were fetched. -/
def geneSuccess (geneId : String) : Event :=
  ⟨Level.info, geneId, none, "caching", none, "success in caching gene id"⟩

/-! ## URL construction -/

/-- `fmt.Sprintf("%s/%s/%s/%s.json", base, "gene", geneId, "gene")`. -/
def geneURL (base geneId : String) : String :=
  base ++ "/" ++ "gene" ++ "/" ++ geneId ++ "/" ++ "gene" ++ ".json"

/-- `fmt.Sprintf("%s/%s/%s/%s/%s.json", base, "gene", geneId, "protein", transId)`. -/
def proteinURL (base geneId transId : String) : String :=
  base ++ "/" ++ "gene" ++ "/" ++ geneId ++ "/" ++ "protein" ++ "/" ++ transId ++ ".json"

/-- `fmt.Sprintf("%s%s", base, item.Source)`. -/
def panelURL (base source : String) : String :=
  base ++ source

/-- `fmt.Sprintf("%s/%s/%s/%s.json", base, "gene", geneId, "references")`. -/
def referencesURL (base geneId : String) : String :=
  base ++ "/" ++ "gene" ++ "/" ++ geneId ++ "/" ++ "references" ++ ".json"

/-! ## Splitting an input line -/

/-- Worker of `splitTab`: `cur` holds the characters of the current token, reversed. -/
def splitTabAux : List Char → List Char → List String
  | [], cur => [String.mk cur.reverse]
  | c :: cs, cur =>
    if c = '\t' then String.mk cur.reverse :: splitTabAux cs []
    else splitTabAux cs (c :: cur)

/-- `strings.Split(line, "\t")`. -/
def splitTab (line : String) : List String :=
  splitTabAux line.data []

/-! ## The traversal -/

/-- The loop `for _, item := range presp[0].Items` (lines 119-145). -/
def fetchPanels (net : Net) (base geneId : String) : List PanelItem → St → St
  | [], st => st
  | item :: rest, st =>
    let purl := panelURL base item.Source
    match net st.nget purl with
    | GetResult.err msg =>
      fetchPanels net base geneId rest
        ((st.get Kind.PanelSource purl (GetResult.err msg)).log (fetchError geneId purl msg))
    | GetResult.resp code body =>
      let st1 := (st.get Kind.PanelSource purl (GetResult.resp code body)).deferClose st.nget
      if code ≠ 200 then
        fetchPanels net base geneId rest (st1.log (httpError geneId purl code))
      else
        fetchPanels net base geneId rest (st1.log (fetchSuccess geneId purl))

/-- One iteration of `for _, u := range urls` (lines 85-145).  The result is
the state after the iteration and the panic that ended it, if any. -/
def fetchTop (net : Net) (base geneId : String) (kind : Kind) (u : String) (st : St) :
    St × Option Panic :=
  match net st.nget u with
  | GetResult.err msg =>
    ((st.get kind u (GetResult.err msg)).log (fetchError geneId u msg), none)
  | GetResult.resp code body =>
    let st1 := (st.get kind u (GetResult.resp code body)).deferClose st.nget
    if code ≠ 200 then
      (st1.log (httpError geneId u code), none)
    else
      let st2 := (st1.log (fetchSuccess geneId u)).decode st.nget
      match body with
      | Body.invalid msg => (st2.log (decodeError geneId u msg), none)
      | Body.pages [] => (st2, some (Panic.indexOutOfRange 119 0 0))
      | Body.pages (p :: _) => (fetchPanels net base geneId p.Items st2, none)

/-- The loop `for _, u := range urls` (lines 84-146) over the tagged URLs. -/
def fetchTops (net : Net) (base geneId : String) : List (Kind × String) → St → St × Option Panic
  | [], st => (st, none)
  | (kind, u) :: rest, st =>
    match fetchTop net base geneId kind u st with
    | (st1, some p) => (st1, some p)
    | (st1, none) => fetchTops net base geneId rest st1

/-- The references step (lines 148-182). -/
def fetchReferences (net : Net) (base geneId : String) (st : St) : St × Option Halt :=
  let rurl := referencesURL base geneId
  match net st.nget rurl with
  | GetResult.err msg =>
    ((st.get Kind.References rurl (GetResult.err msg)).log (fetchError geneId rurl msg),
      some (Halt.exit ⟨2, "error fetching url " ++ rurl ++ " " ++ msg⟩))
  | GetResult.resp code body =>
    let st1 := (st.get Kind.References rurl (GetResult.resp code body)).deferClose st.nget
    if code ≠ 200 then
      -- line 170 evaluates `err.Error()` with `err == nil` while building the message
      (st1.log (httpError geneId rurl code), some (Halt.panic (Panic.nilDereference 170)))
    else
      ((st1.log (fetchSuccess geneId rurl)).log (geneSuccess geneId), none)

/-- The body of the scanning loop for one line (lines 77-182). -/
def processLine (net : Net) (base line : String) (st : St) : St × Option Halt :=
  match splitTab line with
  | [] => (st, some (Halt.panic (Panic.indexOutOfRange 78 0 0)))
  | [_] => (st, some (Halt.panic (Panic.indexOutOfRange 79 1 1)))
  | geneId :: transId :: _ =>
    let urls := [(Kind.GeneDetail, geneURL base geneId),
                 (Kind.ProteinDetail, proteinURL base geneId transId)]
    match fetchTops net base geneId urls st with
    | (st1, some p) => (st1, some (Halt.panic p))
    | (st1, none) => fetchReferences net base geneId st1

/-- The loop `for scanner.Scan()` (lines 76-183). -/
def scanLoop (net : Net) (base : String) : List String → St → St × Option Halt
  | [], st => (st, none)
  | line :: rest, st =>
    match processLine net base line st with
    | (st1, some h) => (st1, some h)
    | (st1, none) => scanLoop net base rest st1

/-- The deferred `resp.Body.Close()` calls, run most recent first. -/
def runDeferred : List Nat → St → St
  | [], st => { st with deferred := [] }
  | b :: rest, st => runDeferred rest (st.close b)

/-- Leaving the function after the input file was opened: the deferred body
closes run, then the deferred `r.Close()`. -/
def leave (st : St) : St :=
  let st1 := runDeferred st.deferred st
  { st1 with trace := st1.trace ++ [Step.closeFile] }

/-- The function `cacheGeneAction` (lines 61-188). -/
def cacheGeneAction (net : Net) (c : Context) : Run :=
  match c.logFileErr with
  | some e => ⟨[], Outcome.returned (some ⟨2, "unable to open log file " ++ e⟩), []⟩
  | none =>
    match c.openErr with
    | some e =>
      ⟨[], Outcome.returned (some ⟨2, "cannot open file " ++ c.input ++ " " ++ e⟩), []⟩
    | none =>
      match scanLoop net c.url c.lines St.init with
      | (st, some (Halt.exit e)) => ⟨(leave st).trace, Outcome.returned (some e), (leave st).openBodies⟩
      | (st, some (Halt.panic p)) => ⟨(leave st).trace, Outcome.panicked p, (leave st).openBodies⟩
      | (st, none) =>
        match c.scanErr with
        | some e => ⟨(leave st).trace, Outcome.returned (some ⟨2, e⟩), (leave st).openBodies⟩
        | none => ⟨(leave st).trace, Outcome.returned none, (leave st).openBodies⟩

/-! ## Reading a trace -/

/-- URL of a GET step. -/
def Step.getUrl : Step → Option String
  | Step.get _ u _ => some u
  | _ => none

/-- Resource kind of a GET step. -/
def Step.getKind : Step → Option Kind
  | Step.get k _ _ => some k
  | _ => none

/-- Log entry of a log step. -/
def Step.event : Step → Option Event
  | Step.log e => some e
  | _ => none

/-- Body read by a decode step. -/
def Step.decoded : Step → Option Nat
  | Step.decode b => some b
  | _ => none

/-- URLs of the GETs of a trace, in order. -/
def getUrls (t : List Step) : List String := t.filterMap Step.getUrl

/-- Resource kinds of the GETs of a trace, in order. -/
def getKinds (t : List Step) : List Kind := t.filterMap Step.getKind

/-- Log entries of a trace, in order. -/
def events (t : List Step) : List Event := t.filterMap Step.event

/-- Bodies read by the JSON decoder in a trace, in order. -/
def decodes (t : List Step) : List Nat := t.filterMap Step.decoded

/-- A GET failed: transport error or a status other than 200. -/
def GetResult.failed : GetResult → Bool
  | GetResult.err _ => true
  | GetResult.resp code _ => code != 200

/-- Entry logged for the result of a panel or top-level GET. -/
def outcomeEvent (geneId url : String) : GetResult → Event
  | GetResult.err msg => fetchError geneId url msg
  | GetResult.resp code _ =>
    if code ≠ 200 then httpError geneId url code else fetchSuccess geneId url

/-- Steps of the panel loop started at GET number `n`, as a list. -/
def panelSteps (net : Net) (base geneId : String) : List PanelItem → Nat → List Step
  | [], _ => []
  | item :: rest, n =>
    Step.get Kind.PanelSource (panelURL base item.Source) (net n (panelURL base item.Source)) ::
    Step.log (outcomeEvent geneId (panelURL base item.Source)
      (net n (panelURL base item.Source))) ::
    panelSteps net base geneId rest (n + 1)

/-- Steps of one iteration of the top-level loop started at GET number `n`. -/
def topSteps (net : Net) (base geneId : String) (kind : Kind) (u : String) (n : Nat) :
    List Step :=
  Step.get kind u (net n u) :: Step.log (outcomeEvent geneId u (net n u)) ::
    match net n u with
    | GetResult.err _ => []
    | GetResult.resp code body =>
      if code ≠ 200 then []
      else
        Step.decode n ::
          match body with
          | Body.invalid msg => [Step.log (decodeError geneId u msg)]
          | Body.pages [] => []
          | Body.pages (p :: _) => panelSteps net base geneId p.Items (n + 1)

/-- The panic one iteration of the top-level loop ends in, from the result of its GET. -/
def topPanic : GetResult → Option Panic
  | GetResult.resp code (Body.pages []) =>
    if code ≠ 200 then none else some (Panic.indexOutOfRange 119 0 0)
  | _ => none

/-- Steps of the references step started at GET number `n`. -/
def refSteps (net : Net) (base geneId : String) (n : Nat) : List Step :=
  Step.get Kind.References (referencesURL base geneId) (net n (referencesURL base geneId)) ::
  Step.log (outcomeEvent geneId (referencesURL base geneId)
    (net n (referencesURL base geneId))) ::
  (if (net n (referencesURL base geneId)).failed then [] else [Step.log (geneSuccess geneId)])

/-- How the references step ends, from the result of its GET. -/
def refHalt (rurl : String) : GetResult → Option Halt
  | GetResult.err msg => some (Halt.exit ⟨2, "error fetching url " ++ rurl ++ " " ++ msg⟩)
  | GetResult.resp code _ =>
    if code ≠ 200 then some (Halt.panic (Panic.nilDereference 170)) else none

/-- Steps of the loop body for the record `(geneId, transId)` started at GET number `n`. -/
def lineSteps (net : Net) (base geneId transId : String) (n : Nat) : List Step :=
  let s1 := topSteps net base geneId Kind.GeneDetail (geneURL base geneId) n
  match topPanic (net n (geneURL base geneId)) with
  | some _ => s1
  | none =>
    let n1 := n + (getUrls s1).length
    let s2 := topSteps net base geneId Kind.ProteinDetail (proteinURL base geneId transId) n1
    match topPanic (net n1 (proteinURL base geneId transId)) with
    | some _ => s1 ++ s2
    | none => s1 ++ s2 ++ refSteps net base geneId (n1 + (getUrls s2).length)

/-- How the loop body for the record `(geneId, transId)` ends when started at GET number `n`. -/
def lineHalt (net : Net) (base geneId transId : String) (n : Nat) : Option Halt :=
  let s1 := topSteps net base geneId Kind.GeneDetail (geneURL base geneId) n
  match topPanic (net n (geneURL base geneId)) with
  | some p => some (Halt.panic p)
  | none =>
    let n1 := n + (getUrls s1).length
    let s2 := topSteps net base geneId Kind.ProteinDetail (proteinURL base geneId transId) n1
    match topPanic (net n1 (proteinURL base geneId transId)) with
    | some p => some (Halt.panic p)
    | none =>
      refHalt (referencesURL base geneId)
        (net (n1 + (getUrls s2).length) (referencesURL base geneId))

/-- Steps of the loop body for one input line entered in state `st`: the
trace it produces when the trace so far is emptied. -/
def recordTrace (net : Net) (base line : String) (st : St) : List Step :=
  (processLine net base line { st with trace := [] }).1.trace

/-- A status-200 response whose body decodes to the empty array. -/
def GetResult.emptyArray : GetResult → Bool
  | GetResult.resp code (Body.pages []) => code == 200
  | _ => false

/-- The URLs requested for a top-level URL `u` whose GET gave `r`, in the
words of the specification: `u` alone when the GET fails, the status is not
200 or the body does not decode, and otherwise `u` followed by the panel URLs
of the items of the first decoded page. -/
def walk (base u : String) : GetResult → List String
  | GetResult.err _ => [u]
  | GetResult.resp code body =>
    if code ≠ 200 then [u]
    else
      match body with
      | Body.invalid _ => [u]
      | Body.pages [] => [u]
      | Body.pages (p :: _) => u :: p.Items.map (fun item => base ++ item.Source)

/-- A log entry that carries a `url` field. -/
def Event.perUrl (e : Event) : Bool := e.url.isSome

/-- Log entries of a trace that carry a `url` field. -/
def urlEvents (t : List Step) : List Event := (events t).filter Event.perUrl

/-- Log entries of a trace without a `url` field: the per-gene entries. -/
def summaries (t : List Step) : List Event := (events t).filter (fun e => !e.perUrl)

/-- No GeneDetail or ProteinDetail GET comes after a PanelSource GET. -/
def panelsAfterTopLevel : List Kind → Bool
  | [] => true
  | Kind.PanelSource :: rest =>
    rest.all (fun k => k != Kind.GeneDetail && k != Kind.ProteinDetail)
      && panelsAfterTopLevel rest
  | _ :: rest => panelsAfterTopLevel rest

/-- A log entry of kind `decoding`. -/
def Event.isDecodeError (e : Event) : Bool := e.kind == "decoding"

/-- Per-URL entries of a trace that report the result of a GET (kinds `fetch`,
`http` and `caching`). -/
def outcomeEvents (t : List Step) : List Event :=
  (events t).filter (fun e => e.perUrl && !e.isDecodeError)

/-- Per-URL entries of a trace that report a decode failure. -/
def decodeErrors (t : List Step) : List Event :=
  (events t).filter (fun e => e.perUrl && e.isDecodeError)

/-- GeneDetail and ProteinDetail: the kinds whose response body is decoded. -/
def Kind.topLevel : Kind → Bool
  | Kind.GeneDetail => true
  | Kind.ProteinDetail => true
  | Kind.PanelSource => false
  | Kind.References => false

/-- A status-200 response whose body does not decode. -/
def GetResult.undecodable : GetResult → Bool
  | GetResult.resp code (Body.invalid _) => code == 200
  | _ => false

/-- A top-level GET answered with status 200 and a body that failed to decode. -/
def Step.decodeFailed : Step → Bool
  | Step.get k _ r => k.topLevel && r.undecodable
  | _ => false

/-- Number of decode failures of a trace, read off the responses of its GETs. -/
def decodeFailures (t : List Step) : Nat := (t.filter Step.decodeFailed).length

/-- The `decoding` entry due for a top-level response: one entry when the
status is 200 and the body does not decode, none otherwise. -/
def decodeReport (geneId url : String) : GetResult → List Event
  | GetResult.err _ => []
  | GetResult.resp code (Body.invalid msg) =>
    if code ≠ 200 then [] else [decodeError geneId url msg]
  | GetResult.resp _ (Body.pages _) => []

/-- The log entries due for one step of a record of gene `geneId`: for a GET
its result entry, followed for a top-level GET by the `decoding` entry of a
failed decode and for a References GET that succeeded by the per-gene entry;
nothing for the other steps. -/
def Step.reports (geneId : String) : Step → List Event
  | Step.get Kind.GeneDetail u r => outcomeEvent geneId u r :: decodeReport geneId u r
  | Step.get Kind.ProteinDetail u r => outcomeEvent geneId u r :: decodeReport geneId u r
  | Step.get Kind.PanelSource u r => [outcomeEvent geneId u r]
  | Step.get Kind.References u r =>
    outcomeEvent geneId u r :: (if r.failed then [] else [geneSuccess geneId])
  | Step.log _ => []
  | Step.decode _ => []
  | Step.close _ => []
  | Step.closeFile => []

/-- The log entries due for the steps of a trace, in order. -/
def expectedEvents (geneId : String) : List Step → List Event
  | [] => []
  | s :: t => Step.reports geneId s ++ expectedEvents geneId t

/-- The log entries of a step list are exactly those due for its GETs. -/
def Balanced (geneId : String) (t : List Step) : Prop :=
  events t = expectedEvents geneId t

/-- Resource kind and URL of a GET step. -/
def Step.request : Step → Option (Kind × String)
  | Step.get k u _ => some (k, u)
  | _ => none

/-- Kinds and URLs of the GETs of a trace, in order. -/
def requests (t : List Step) : List (Kind × String) := t.filterMap Step.request

/-- The panel items read from a top-level response: `presp[0].Items` when the
status is 200 and the body decodes to a non-empty array, none otherwise. -/
def GetResult.panelItems : GetResult → List PanelItem
  | GetResult.err _ => []
  | GetResult.resp _ (Body.invalid _) => []
  | GetResult.resp _ (Body.pages []) => []
  | GetResult.resp code (Body.pages (p :: _)) => if code ≠ 200 then [] else p.Items

/-- A References GET that failed. -/
def Step.referencesFailed : Step → Bool
  | Step.get Kind.References _ r => r.failed
  | _ => false

/-- A GeneDetail or ProteinDetail GET with status 200 whose body decodes to
the empty array. -/
def Step.emptyDecode : Step → Bool
  | Step.get Kind.GeneDetail _ r => r.emptyArray
  | Step.get Kind.ProteinDetail _ r => r.emptyArray
  | _ => false

/-- A step after which the run cannot go on. -/
def Step.fatal (s : Step) : Bool := s.referencesFailed || s.emptyDecode

/-- A trace without fatal steps. -/
def NoFatal (t : List Step) : Prop := ∀ s ∈ t, s.fatal = false

/-- A body close or the close of the input file. -/
def Step.isCleanup : Step → Bool
  | Step.close _ => true
  | Step.closeFile => true
  | _ => false

/-- URL of a References GET. -/
def Step.referencesUrl : Step → Option String
  | Step.get Kind.References u _ => some u
  | _ => none

/-- URLs of the References GETs of a trace, in order. -/
def referencesGets (t : List Step) : List String := t.filterMap Step.referencesUrl

/-- The expression `idSlice[0]` for a line: its first token. -/
def geneIdOf (line : String) : String := (splitTab line).headD ""

/-- The trace ends with a failed References GET and its error entry, and `h`
is how the references step ended. -/
def RefStop (base : String) (t : List Step) (h : Option Halt) : Prop :=
  ∃ tOK g r,
    t = tOK ++ [Step.get Kind.References (referencesURL base g) r,
        Step.log (outcomeEvent g (referencesURL base g) r)]
      ∧ NoFatal tOK ∧ r.failed = true ∧ h = refHalt (referencesURL base g) r

/-- The trace ends with a top-level GET whose body decoded to the empty array,
its success entry and the decode, and `h` is the panic of line 119. -/
def EmptyStop (t : List Step) (h : Option Halt) : Prop :=
  ∃ tOK g kind u r m,
    t = tOK ++ [Step.get kind u r, Step.log (fetchSuccess g u), Step.decode m]
      ∧ NoFatal tOK ∧ (Step.get kind u r).emptyDecode = true
      ∧ h = some (Halt.panic (Panic.indexOutOfRange 119 0 0))

/-- The trace has no fatal step and `h` is the panic of a line with fewer than two tokens. -/
def ShortStop (t : List Step) (h : Option Halt) : Prop :=
  NoFatal t
    ∧ (h = some (Halt.panic (Panic.indexOutOfRange 78 0 0))
      ∨ h = some (Halt.panic (Panic.indexOutOfRange 79 1 1)))

/-- The outcome of `cacheGeneAction` from the way the loop ended and `scanner.Err()`. -/
def outcomeOf : Option Halt → Option String → Outcome
  | some (Halt.exit e), _ => Outcome.returned (some e)
  | some (Halt.panic p), _ => Outcome.panicked p
  | none, some e => Outcome.returned (some ⟨2, e⟩)
  | none, none => Outcome.returned none

/-! ## Concrete inputs -/

/-- Base URL of the scenarios. -/
def sampleBase : String := "http://example.test"

/-- Input line of the scenario of the specification. -/
def sampleLine : String := "DDB_G0271324\tDDB0302984"

/-- A decoded page with two panel items. -/
def samplePage : PageResponse :=
  ⟨[⟨"summary", [⟨"Summary"⟩], "/panel/summary"⟩, ⟨"go", [], "/panel/go"⟩], "accordion"⟩

/-- Every GET returns 200 with a body that decodes to one page of two items. -/
def netOK : Net := fun _ _ => GetResult.resp 200 (Body.pages [samplePage])

/-- Every GET returns 200 with a body that is not JSON. -/
def netUndecodable : Net := fun _ _ => GetResult.resp 200 (Body.invalid "invalid character")

/-- Every GET returns 200 with the empty JSON array. -/
def netEmpty : Net := fun _ _ => GetResult.resp 200 (Body.pages [])

/-- The references URL of gene `A` returns 500, every other URL 404. -/
def netRefs500 : Net := fun _ u =>
  if u = "http://example.test/gene/A/references.json" then
    GetResult.resp 500 (Body.invalid "")
  else GetResult.resp 404 (Body.invalid "")

/-- The references URL of gene `A` cannot be reached, every other URL returns 404. -/
def netRefsDown : Net := fun _ u =>
  if u = "http://example.test/gene/A/references.json" then GetResult.err "connection refused"
  else GetResult.resp 404 (Body.invalid "")

/-- The gene page decodes, its first panel times out, its second is missing,
the protein page is not JSON, the references are served. -/
def netMixed : Net := fun n _ =>
  match n with
  | 0 => GetResult.resp 200 (Body.pages [samplePage])
  | 1 => GetResult.err "timeout"
  | 2 => GetResult.resp 404 (Body.invalid "")
  | 3 => GetResult.resp 200 (Body.invalid "invalid character")
  | _ => GetResult.resp 200 (Body.invalid "")

/-- A run over the single line `A<TAB>T1`. -/
def ctxOne : Context := ⟨none, "genes.tsv", none, sampleBase, ["A\tT1"], none⟩

/-- A run over the lines `A<TAB>T1` and `B<TAB>T2`. -/
def ctxTwo : Context := ⟨none, "genes.tsv", none, sampleBase, ["A\tT1", "B\tT2"], none⟩

/-- Steps of the run of `netRefs500` over `ctxTwo` before the References GET of gene `A`. -/
def abortHead : List Step :=
  [Step.get Kind.GeneDetail "http://example.test/gene/A/gene.json"
      (GetResult.resp 404 (Body.invalid "")),
   Step.log (httpError "A" "http://example.test/gene/A/gene.json" 404),
   Step.get Kind.ProteinDetail "http://example.test/gene/A/protein/T1.json"
      (GetResult.resp 404 (Body.invalid "")),
   Step.log (httpError "A" "http://example.test/gene/A/protein/T1.json" 404)]

/-- Steps of the run of `netRefs500` over `ctxTwo` after the References GET of gene `A`. -/
def abortTail : List Step :=
  [Step.log (httpError "A" "http://example.test/gene/A/references.json" 500),
   Step.close 2, Step.close 1, Step.close 0, Step.closeFile]

/-- Steps of the run of `netEmpty` over `ctxTwo` after the GeneDetail GET of gene `A`. -/
def crashTail : List Step :=
  [Step.log (fetchSuccess "A" "http://example.test/gene/A/gene.json"),
   Step.decode 0, Step.close 0, Step.closeFile]

/-! ## Basic facts -/

@[simp]
theorem getUrls_append (a b : List Step) : getUrls (a ++ b) = getUrls a ++ getUrls b := by
  simp [getUrls]

@[simp]
theorem getKinds_append (a b : List Step) : getKinds (a ++ b) = getKinds a ++ getKinds b := by
  simp [getKinds]

@[simp]
theorem events_append (a b : List Step) : events (a ++ b) = events a ++ events b := by
  simp [events]

@[simp]
theorem decodes_append (a b : List Step) : decodes (a ++ b) = decodes a ++ decodes b := by
  simp [decodes]

theorem fetchPanels_spec (net : Net) (base geneId : String) :
    ∀ (items : List PanelItem) (st : St),
      (fetchPanels net base geneId items st).trace
          = st.trace ++ panelSteps net base geneId items st.nget
        ∧ (fetchPanels net base geneId items st).nget = st.nget + items.length := by
  intro items
  induction items with
  | nil => intro st; simp [fetchPanels, panelSteps]
  | cons item rest ih =>
    intro st
    cases h : net st.nget (panelURL base item.Source) with
    | err msg =>
      simp only [fetchPanels, h, panelSteps]
      refine ⟨?_, ?_⟩
      · rw [(ih _).1]; simp [St.get, St.log, outcomeEvent]
      · rw [(ih _).2]; simp [St.get, St.log]; omega
    | resp code body =>
      simp only [fetchPanels, h, panelSteps]
      by_cases hc : code = 200
      · simp only [hc, ne_eq, not_true_eq_false, if_false]
        refine ⟨?_, ?_⟩
        · rw [(ih _).1]; simp [St.get, St.log, St.deferClose, outcomeEvent]
        · rw [(ih _).2]; simp [St.get, St.log, St.deferClose]; omega
      · simp only [ne_eq, hc, not_false_eq_true, if_true]
        refine ⟨?_, ?_⟩
        · rw [(ih _).1]; simp [St.get, St.log, St.deferClose, outcomeEvent, hc]
        · rw [(ih _).2]; simp [St.get, St.log, St.deferClose]; omega

theorem getUrls_panelSteps (net : Net) (base geneId : String) :
    ∀ (items : List PanelItem) (n : Nat),
      getUrls (panelSteps net base geneId items n)
        = items.map (fun item => panelURL base item.Source) := by
  intro items
  induction items with
  | nil => intro n; rfl
  | cons item rest ih =>
    intro n
    have h := ih (n + 1)
    simp only [getUrls] at h
    simp [panelSteps, getUrls, Step.getUrl, h]

theorem fetchTop_spec (net : Net) (base geneId : String) (kind : Kind) (u : String) (st : St) :
    (fetchTop net base geneId kind u st).1.trace
        = st.trace ++ topSteps net base geneId kind u st.nget
      ∧ (fetchTop net base geneId kind u st).1.nget
        = st.nget + (getUrls (topSteps net base geneId kind u st.nget)).length
      ∧ (fetchTop net base geneId kind u st).2 = topPanic (net st.nget u) := by
  cases h : net st.nget u with
  | err msg =>
    simp [fetchTop, topSteps, topPanic, h, St.get, St.log, outcomeEvent, getUrls, Step.getUrl]
  | resp code body =>
    by_cases hc : code = 200
    · subst hc
      cases body with
      | invalid msg =>
        simp [fetchTop, topSteps, topPanic, h, St.get, St.log, St.decode, St.deferClose,
          outcomeEvent, getUrls, Step.getUrl]
      | pages ps =>
        cases ps with
        | nil =>
          simp [fetchTop, topSteps, topPanic, h, St.get, St.log, St.decode, St.deferClose,
            outcomeEvent, getUrls, Step.getUrl]
        | cons p rest =>
          simp only [fetchTop, h, topSteps, topPanic, ne_eq, not_true_eq_false, if_false]
          refine ⟨?_, ?_, trivial⟩
          · rw [(fetchPanels_spec net base geneId _ _).1]
            simp [St.get, St.log, St.decode, St.deferClose, outcomeEvent]
          · rw [(fetchPanels_spec net base geneId _ _).2]
            have hp := getUrls_panelSteps net base geneId p.Items (st.nget + 1)
            simp only [getUrls] at hp
            simp [St.get, St.log, St.decode, St.deferClose, getUrls, Step.getUrl, hp]
            omega
    · simp [fetchTop, topSteps, topPanic, h, hc, St.get, St.log, St.deferClose, outcomeEvent,
        getUrls, Step.getUrl]
      cases body with
      | invalid msg => simp [topPanic]
      | pages ps => cases ps <;> simp [topPanic, hc]

theorem fetchReferences_spec (net : Net) (base geneId : String) (st : St) :
    (fetchReferences net base geneId st).1.trace = st.trace ++ refSteps net base geneId st.nget
      ∧ (fetchReferences net base geneId st).1.nget = st.nget + 1
      ∧ (fetchReferences net base geneId st).2
        = refHalt (referencesURL base geneId) (net st.nget (referencesURL base geneId)) := by
  cases h : net st.nget (referencesURL base geneId) with
  | err msg =>
    simp [fetchReferences, refSteps, refHalt, h, St.get, St.log, outcomeEvent, GetResult.failed]
  | resp code body =>
    by_cases hc : code = 200
    · simp [fetchReferences, refSteps, refHalt, h, hc, St.get, St.log, St.deferClose,
        outcomeEvent, GetResult.failed]
    · simp [fetchReferences, refSteps, refHalt, h, hc, St.get, St.log, St.deferClose,
        outcomeEvent, GetResult.failed]

theorem getUrls_refSteps (net : Net) (base geneId : String) (n : Nat) :
    getUrls (refSteps net base geneId n) = [referencesURL base geneId] := by
  unfold refSteps
  split <;> simp [getUrls, Step.getUrl]

theorem processLine_spec (net : Net) (base line geneId transId : String) (rest : List String)
    (st : St) (hline : splitTab line = geneId :: transId :: rest) :
    (processLine net base line st).1.trace
        = st.trace ++ lineSteps net base geneId transId st.nget
      ∧ (processLine net base line st).1.nget
        = st.nget + (getUrls (lineSteps net base geneId transId st.nget)).length
      ∧ (processLine net base line st).2 = lineHalt net base geneId transId st.nget := by
  obtain ⟨ht1, hn1, hp1⟩ :=
    fetchTop_spec net base geneId Kind.GeneDetail (geneURL base geneId) st
  simp only [processLine, hline, fetchTops, lineSteps, lineHalt]
  rcases h1 : fetchTop net base geneId Kind.GeneDetail (geneURL base geneId) st with ⟨st1, p1⟩
  rw [h1] at ht1 hn1 hp1
  simp only at ht1 hn1 hp1
  rw [← hp1]
  cases p1 with
  | some p => simp [ht1, hn1]
  | none =>
    simp only
    obtain ⟨ht2, hn2, hp2⟩ :=
      fetchTop_spec net base geneId Kind.ProteinDetail (proteinURL base geneId transId) st1
    rcases h2 : fetchTop net base geneId Kind.ProteinDetail
      (proteinURL base geneId transId) st1 with ⟨st2, p2⟩
    rw [h2] at ht2 hn2 hp2
    simp only at ht2 hn2 hp2
    rw [← hn1, ← hp2]
    cases p2 with
    | some p => simp [ht2, hn2, ht1]; omega
    | none =>
      simp only
      obtain ⟨ht3, hn3, hp3⟩ := fetchReferences_spec net base geneId st2
      rw [← hn2]
      refine ⟨?_, ?_, hp3⟩
      · rw [ht3, ht2, ht1]; simp
      · rw [hn3, hn2, hn1]; simp [getUrls_refSteps]; omega

theorem processLine_trace_irrelevant (net : Net) (base line : String) (st : St) :
    (processLine net base line st).1.trace = st.trace ++ recordTrace net base line st
      ∧ (processLine net base line st).2
        = (processLine net base line { st with trace := [] }).2 := by
  unfold recordTrace
  rcases hs : splitTab line with _ | ⟨g, _ | ⟨t, rest⟩⟩
  · simp [processLine, hs]
  · simp [processLine, hs]
  · obtain ⟨h1, -, h3⟩ := processLine_spec net base line g t rest st hs
    obtain ⟨h1e, -, h3e⟩ := processLine_spec net base line g t rest { st with trace := [] } hs
    rw [h1, h1e, h3, h3e]
    simp

theorem recordTrace_eq (net : Net) (base line geneId transId : String) (rest : List String)
    (st : St) (hline : splitTab line = geneId :: transId :: rest) :
    recordTrace net base line st = lineSteps net base geneId transId st.nget := by
  unfold recordTrace
  rw [(processLine_spec net base line geneId transId rest _ hline).1]
  simp

theorem getUrls_topSteps (net : Net) (base geneId : String) (kind : Kind) (u : String)
    (n : Nat) :
    getUrls (topSteps net base geneId kind u n) = walk base u (net n u) := by
  unfold topSteps walk
  cases h : net n u with
  | err msg => simp [getUrls, Step.getUrl]
  | resp code body =>
    by_cases hc : code = 200
    · cases body with
      | invalid msg => simp [getUrls, Step.getUrl, hc]
      | pages ps =>
        cases ps with
        | nil => simp [getUrls, Step.getUrl, hc]
        | cons p rest =>
          have hp := getUrls_panelSteps net base geneId p.Items (n + 1)
          simp only [getUrls] at hp
          simp [getUrls, Step.getUrl, hc, hp, panelURL]
    · simp [getUrls, Step.getUrl, hc]

theorem topPanic_eq_none (r : GetResult) (h : r.emptyArray = false) : topPanic r = none := by
  cases r with
  | err msg => rfl
  | resp code body =>
    cases body with
    | invalid msg => rfl
    | pages ps =>
      cases ps with
      | nil =>
        simp only [GetResult.emptyArray, beq_eq_false_iff_ne] at h
        simp [topPanic, h]
      | cons p rest => rfl

theorem decodes_panelSteps (net : Net) (base geneId : String) :
    ∀ (items : List PanelItem) (n : Nat), decodes (panelSteps net base geneId items n) = [] := by
  intro items
  induction items with
  | nil => intro n; rfl
  | cons item rest ih =>
    intro n
    have h := ih (n + 1)
    simp only [decodes] at h
    simp [panelSteps, decodes, Step.decoded, h]

theorem decodes_topSteps (net : Net) (base geneId : String) (kind : Kind) (u : String)
    (n : Nat) : ∀ b ∈ decodes (topSteps net base geneId kind u n), b = n := by
  unfold topSteps
  cases h : net n u with
  | err msg => simp [decodes, Step.decoded]
  | resp code body =>
    by_cases hc : code = 200
    · cases body with
      | invalid msg => simp [decodes, Step.decoded, hc]
      | pages ps =>
        cases ps with
        | nil => simp [decodes, Step.decoded, hc]
        | cons p rest =>
          have hp := decodes_panelSteps net base geneId p.Items (n + 1)
          simp only [decodes] at hp
          simp [decodes, Step.decoded, hc, hp]
    · simp [decodes, Step.decoded, hc]

theorem decodes_refSteps (net : Net) (base geneId : String) (n : Nat) :
    decodes (refSteps net base geneId n) = [] := by
  unfold refSteps
  split <;> simp [decodes, Step.decoded]

@[simp]
theorem requests_append (a b : List Step) : requests (a ++ b) = requests a ++ requests b := by
  simp [requests]

theorem requests_panelSteps (net : Net) (base geneId : String) :
    ∀ (items : List PanelItem) (n : Nat),
      requests (panelSteps net base geneId items n)
        = items.map (fun item => (Kind.PanelSource, base ++ item.Source)) := by
  intro items
  induction items with
  | nil => intro n; rfl
  | cons item rest ih =>
    intro n
    have h := ih (n + 1)
    simp only [requests] at h
    simp [panelSteps, requests, Step.request, h, panelURL]

theorem requests_topSteps (net : Net) (base geneId : String) (kind : Kind) (u : String)
    (n : Nat) :
    requests (topSteps net base geneId kind u n)
      = (kind, u) :: (net n u).panelItems.map
          (fun item => (Kind.PanelSource, base ++ item.Source)) := by
  unfold topSteps
  cases h : net n u with
  | err msg => simp [requests, Step.request, GetResult.panelItems]
  | resp code body =>
    by_cases hc : code = 200
    · cases body with
      | invalid msg => simp [requests, Step.request, GetResult.panelItems, hc]
      | pages ps =>
        cases ps with
        | nil => simp [requests, Step.request, GetResult.panelItems, hc]
        | cons p rest =>
          have hp := requests_panelSteps net base geneId p.Items (n + 1)
          simp only [requests] at hp
          simp [requests, Step.request, GetResult.panelItems, hc, hp]
    · cases body with
      | invalid msg => simp [requests, Step.request, GetResult.panelItems, hc]
      | pages ps => cases ps <;> simp [requests, Step.request, GetResult.panelItems, hc]

theorem requests_refSteps (net : Net) (base geneId : String) (n : Nat) :
    requests (refSteps net base geneId n) = [(Kind.References, referencesURL base geneId)] := by
  unfold refSteps
  split <;> simp [requests, Step.request]

theorem getUrls_eq_requests (t : List Step) : getUrls t = (requests t).map Prod.snd := by
  induction t with
  | nil => rfl
  | cons s t ih =>
    simp only [getUrls, requests] at ih
    cases s <;> simp [getUrls, requests, Step.getUrl, Step.request, ih]

theorem topSteps_gets (net : Net) (base geneId : String) (kind : Kind) (u : String)
    (n : Nat) :
    n + (getUrls (topSteps net base geneId kind u n)).length
      = n + 1 + (net n u).panelItems.length := by
  rw [getUrls_eq_requests, requests_topSteps]
  simp
  omega

theorem events_panelSteps_ok (net : Net) (base geneId : String) :
    ∀ (items : List PanelItem) (n : Nat),
      (∀ m u, n ≤ m → m < n + items.length → ∃ body, net m u = GetResult.resp 200 body) →
      events (panelSteps net base geneId items n)
        = items.map (fun item => fetchSuccess geneId (panelURL base item.Source)) := by
  intro items
  induction items with
  | nil => intro n _; rfl
  | cons item rest ih =>
    intro n h
    have hrest := ih (n + 1) (fun m u h1 h2 => h m u (by omega) (by simp; omega))
    obtain ⟨body, hb⟩ := h n (panelURL base item.Source) (le_refl _) (by simp)
    simp only [events] at hrest
    simp [panelSteps, events, Step.event, hrest, hb, outcomeEvent]

theorem outcomeEvent_perUrl (geneId url : String) (r : GetResult) :
    (outcomeEvent geneId url r).perUrl = true ∧ (outcomeEvent geneId url r).isDecodeError = false := by
  have hf : ("fetch" == "decoding") = false := by decide
  have hh : ("http" == "decoding") = false := by decide
  have hk : ("caching" == "decoding") = false := by decide
  cases r with
  | err msg => exact ⟨rfl, hf⟩
  | resp code body =>
    by_cases hc : code = 200
    · simp only [outcomeEvent, hc, ne_eq, not_true_eq_false, if_false]
      exact ⟨rfl, hk⟩
    · simp only [outcomeEvent, hc, ne_eq, not_false_eq_true, if_true]
      exact ⟨rfl, hh⟩

theorem expectedEvents_append (geneId : String) (a b : List Step) :
    expectedEvents geneId (a ++ b) = expectedEvents geneId a ++ expectedEvents geneId b := by
  induction a with
  | nil => rfl
  | cons s t ih => simp [expectedEvents, ih]

theorem balanced_nil (geneId : String) : Balanced geneId [] := rfl

theorem balanced_append {geneId : String} {a b : List Step} (ha : Balanced geneId a)
    (hb : Balanced geneId b) : Balanced geneId (a ++ b) := by
  unfold Balanced at *
  rw [events_append, expectedEvents_append, ha, hb]

theorem balanced_panelSteps (net : Net) (base geneId : String) :
    ∀ (items : List PanelItem) (n : Nat),
      Balanced geneId (panelSteps net base geneId items n) := by
  intro items
  induction items with
  | nil => intro n; exact balanced_nil _
  | cons item rest ih =>
    intro n
    have h := ih (n + 1)
    unfold Balanced at *
    simp only [events] at h
    simp [panelSteps, events, Step.event, expectedEvents, Step.reports, h]

theorem balanced_topSteps (net : Net) (base geneId : String) (kind : Kind) (u : String)
    (n : Nat) (hk : kind = Kind.GeneDetail ∨ kind = Kind.ProteinDetail) :
    Balanced geneId (topSteps net base geneId kind u n) := by
  unfold Balanced topSteps
  rcases hk with rfl | rfl
  all_goals
    cases h : net n u with
    | err msg =>
      simp [events, Step.event, expectedEvents, Step.reports, decodeReport]
    | resp code body =>
      by_cases hc : code = 200
      · subst hc
        cases body with
        | invalid msg =>
          simp [events, Step.event, expectedEvents, Step.reports, decodeReport]
        | pages ps =>
          cases ps with
          | nil => simp [events, Step.event, expectedEvents, Step.reports, decodeReport]
          | cons p rest =>
            have hp := balanced_panelSteps net base geneId p.Items (n + 1)
            unfold Balanced at hp
            simp only [events] at hp
            simp [events, Step.event, expectedEvents, Step.reports, decodeReport, hp]
      · cases body <;>
          simp [events, Step.event, expectedEvents, Step.reports, decodeReport, hc]

theorem balanced_refSteps (net : Net) (base geneId : String) (n : Nat) :
    Balanced geneId (refSteps net base geneId n) := by
  unfold Balanced refSteps
  cases hf : (net n (referencesURL base geneId)).failed <;>
    simp [events, Step.event, expectedEvents, Step.reports, hf]

theorem balanced_lineSteps (net : Net) (base geneId transId : String) (n : Nat) :
    Balanced geneId (lineSteps net base geneId transId n) := by
  unfold lineSteps
  simp only
  split
  · exact balanced_topSteps _ _ _ _ _ _ (Or.inl rfl)
  · split
    · exact balanced_append (balanced_topSteps _ _ _ _ _ _ (Or.inl rfl))
        (balanced_topSteps _ _ _ _ _ _ (Or.inr rfl))
    · exact balanced_append
        (balanced_append (balanced_topSteps _ _ _ _ _ _ (Or.inl rfl))
          (balanced_topSteps _ _ _ _ _ _ (Or.inr rfl)))
        (balanced_refSteps _ _ _ _)

theorem decodeReport_counts (geneId url : String) (r : GetResult) :
    ((decodeReport geneId url r).filter (fun e => e.perUrl && !e.isDecodeError)).length = 0
      ∧ ((decodeReport geneId url r).filter (fun e => e.perUrl && e.isDecodeError)).length
        = (if r.undecodable then 1 else 0) := by
  have hk : ("decoding" == "decoding") = true := by decide
  cases r with
  | err msg => exact ⟨rfl, rfl⟩
  | resp code body =>
    cases body with
    | pages ps => exact ⟨rfl, rfl⟩
    | invalid msg =>
      have hd2 : (decodeError geneId url msg).isDecodeError = true := hk
      have hp2 : (decodeError geneId url msg).perUrl = true := rfl
      by_cases hc : code = 200
      · subst hc
        simp [decodeReport, GetResult.undecodable, hd2, hp2]
      · simp [decodeReport, GetResult.undecodable, hc]

theorem filter_counts_cons (x : Event) (l : List Event) (h1 : x.perUrl = true)
    (h2 : x.isDecodeError = false) :
    ((x :: l).filter (fun e => e.perUrl && !e.isDecodeError)).length
        = 1 + (l.filter (fun e => e.perUrl && !e.isDecodeError)).length
      ∧ ((x :: l).filter (fun e => e.perUrl && e.isDecodeError)).length
        = (l.filter (fun e => e.perUrl && e.isDecodeError)).length := by
  constructor
  · simp [List.filter_cons, h1, h2]; omega
  · simp [List.filter_cons, h1, h2]

theorem reports_counts (geneId : String) (s : Step) :
    ((Step.reports geneId s).filter (fun e => e.perUrl && !e.isDecodeError)).length
        = (getUrls [s]).length
      ∧ ((Step.reports geneId s).filter (fun e => e.perUrl && e.isDecodeError)).length
        = decodeFailures [s] := by
  cases s with
  | log e => exact ⟨rfl, rfl⟩
  | decode n => exact ⟨rfl, rfl⟩
  | close n => exact ⟨rfl, rfl⟩
  | closeFile => exact ⟨rfl, rfl⟩
  | get k u r =>
    obtain ⟨h1, h2⟩ := outcomeEvent_perUrl geneId u r
    obtain ⟨d1, d2⟩ := decodeReport_counts geneId u r
    have hg : (geneSuccess geneId).perUrl = false := rfl
    have hone : ∀ k0, (getUrls [Step.get k0 u r]).length = 1 := fun _ => rfl
    cases k with
    | GeneDetail =>
      obtain ⟨a, b⟩ := filter_counts_cons _ (decodeReport geneId u r) h1 h2
      constructor
      · show ((outcomeEvent geneId u r :: decodeReport geneId u r).filter _).length = _
        rw [a, d1, hone]
      · show ((outcomeEvent geneId u r :: decodeReport geneId u r).filter _).length = _
        rw [b, d2]
        cases hu : r.undecodable <;>
          simp [decodeFailures, Step.decodeFailed, Kind.topLevel, hu]
    | ProteinDetail =>
      obtain ⟨a, b⟩ := filter_counts_cons _ (decodeReport geneId u r) h1 h2
      constructor
      · show ((outcomeEvent geneId u r :: decodeReport geneId u r).filter _).length = _
        rw [a, d1, hone]
      · show ((outcomeEvent geneId u r :: decodeReport geneId u r).filter _).length = _
        rw [b, d2]
        cases hu : r.undecodable <;>
          simp [decodeFailures, Step.decodeFailed, Kind.topLevel, hu]
    | PanelSource =>
      obtain ⟨a, b⟩ := filter_counts_cons _ [] h1 h2
      constructor
      · show ((outcomeEvent geneId u r :: []).filter _).length = _
        rw [a, hone]; rfl
      · show ((outcomeEvent geneId u r :: []).filter _).length = _
        rw [b]; rfl
    | References =>
      cases hf : r.failed with
      | true =>
        obtain ⟨a, b⟩ := filter_counts_cons _ [] h1 h2
        constructor
        · show ((outcomeEvent geneId u r :: (if r.failed then [] else _)).filter _).length = _
          rw [hf, hone]; exact a
        · show ((outcomeEvent geneId u r :: (if r.failed then [] else _)).filter _).length = _
          rw [hf]; exact b
      | false =>
        obtain ⟨a, b⟩ := filter_counts_cons _ [geneSuccess geneId] h1 h2
        constructor
        · show ((outcomeEvent geneId u r :: (if r.failed then [] else _)).filter _).length = _
          rw [hf, hone]; exact a
        · show ((outcomeEvent geneId u r :: (if r.failed then [] else _)).filter _).length = _
          rw [hf]; exact b

theorem expectedEvents_counts (geneId : String) :
    ∀ t : List Step,
      ((expectedEvents geneId t).filter (fun e => e.perUrl && !e.isDecodeError)).length
          = (getUrls t).length
        ∧ ((expectedEvents geneId t).filter (fun e => e.perUrl && e.isDecodeError)).length
          = decodeFailures t := by
  intro t
  induction t with
  | nil => exact ⟨rfl, rfl⟩
  | cons s t ih =>
    obtain ⟨r1, r2⟩ := reports_counts geneId s
    obtain ⟨i1, i2⟩ := ih
    have hu : getUrls (s :: t) = getUrls [s] ++ getUrls t := by
      rw [← getUrls_append]; rfl
    have hd : decodeFailures (s :: t) = decodeFailures [s] + decodeFailures t := by
      simp only [decodeFailures]
      rw [← List.length_append, ← List.filter_append]; rfl
    constructor
    · rw [expectedEvents, List.filter_append, List.length_append, r1, i1, hu,
        List.length_append]
    · rw [expectedEvents, List.filter_append, List.length_append, r2, i2, hd]

theorem perUrl_partition (l : List Event) :
    (l.filter Event.perUrl).length
      = (l.filter (fun e => e.perUrl && !e.isDecodeError)).length
        + (l.filter (fun e => e.perUrl && e.isDecodeError)).length := by
  induction l with
  | nil => rfl
  | cons e t ih =>
    simp only [List.filter_cons]
    cases hp : e.perUrl <;> cases hd : e.isDecodeError <;> simp [ih] <;> omega

theorem recordTrace_short (net : Net) (base line : String) (st : St)
    (h : (splitTab line).length < 2) : recordTrace net base line st = [] := by
  unfold recordTrace
  rcases hs : splitTab line with _ | ⟨g, _ | ⟨t, rest⟩⟩
  · simp [processLine, hs]
  · simp [processLine, hs]
  · exfalso; rw [hs] at h; simp only [List.length_cons] at h; omega

theorem mem_panelSteps (net : Net) (base geneId : String) :
    ∀ (items : List PanelItem) (n : Nat) (k : Kind) (u : String) (r : GetResult),
      Step.get k u r ∈ panelSteps net base geneId items n →
      k = Kind.PanelSource ∧ ∃ item ∈ items, u = base ++ item.Source := by
  intro items
  induction items with
  | nil => intro n k u r h; simp [panelSteps] at h
  | cons item rest ih =>
    intro n k u r h
    simp only [panelSteps, List.mem_cons, Step.get.injEq, reduceCtorEq, false_or] at h
    rcases h with ⟨hk, hu, -⟩ | h
    · exact ⟨hk, item, List.mem_cons_self _ _, by rw [hu]; rfl⟩
    · obtain ⟨hk, it, hit, hu⟩ := ih (n + 1) k u r h
      exact ⟨hk, it, List.mem_cons_of_mem _ hit, hu⟩

theorem mem_topSteps (net : Net) (base geneId : String) (kind : Kind) (u0 : String) (n : Nat)
    (k : Kind) (u : String) (r : GetResult)
    (h : Step.get k u r ∈ topSteps net base geneId kind u0 n) :
    (k = kind ∧ u = u0) ∨
      (k = Kind.PanelSource ∧ ∃ p ps item,
        Step.get kind u0 (GetResult.resp 200 (Body.pages (p :: ps)))
            ∈ topSteps net base geneId kind u0 n
          ∧ item ∈ p.Items ∧ u = base ++ item.Source) := by
  unfold topSteps at h ⊢
  simp only [List.mem_cons, Step.get.injEq, reduceCtorEq, false_or] at h
  rcases h with ⟨hk, hu, -⟩ | h
  · exact Or.inl ⟨hk, hu⟩
  · right
    cases hr : net n u0 with
    | err msg => rw [hr] at h; simp at h
    | resp code body =>
      rw [hr] at h
      by_cases hc : code = 200
      · subst hc
        simp only [ne_eq, not_true_eq_false, if_false, List.mem_cons, reduceCtorEq,
          false_or] at h
        cases body with
        | invalid msg => simp at h
        | pages ps =>
          cases ps with
          | nil => simp at h
          | cons p rest =>
            obtain ⟨hk, item, hit, hu⟩ := mem_panelSteps net base geneId _ _ _ _ _ h
            exact ⟨hk, p, rest, item, List.mem_cons_self _ _, hit, hu⟩
      · simp [hc] at h

theorem mem_refSteps (net : Net) (base geneId : String) (n : Nat)
    (k : Kind) (u : String) (r : GetResult)
    (h : Step.get k u r ∈ refSteps net base geneId n) :
    k = Kind.References ∧ u = referencesURL base geneId := by
  unfold refSteps at h
  simp only [List.mem_cons, Step.get.injEq, reduceCtorEq, false_or] at h
  rcases h with ⟨hk, hu, -⟩ | h
  · exact ⟨hk, hu⟩
  · split at h <;> simp at h

theorem geneURL_eq (base geneId : String) :
    geneURL base geneId = base ++ "/gene/" ++ geneId ++ "/gene.json" := by
  have h1 : "/gene/" = "/" ++ ("gene" ++ "/") := by decide
  have h2 : "/gene.json" = "/" ++ ("gene" ++ ".json") := by decide
  rw [geneURL, h1, h2]
  simp only [String.append_assoc]

theorem proteinURL_eq (base geneId transId : String) :
    proteinURL base geneId transId
      = base ++ "/gene/" ++ geneId ++ "/protein/" ++ transId ++ ".json" := by
  have h1 : "/gene/" = "/" ++ ("gene" ++ "/") := by decide
  have h2 : "/protein/" = "/" ++ ("protein" ++ "/") := by decide
  rw [proteinURL, h1, h2]
  simp only [String.append_assoc]

theorem referencesURL_eq (base geneId : String) :
    referencesURL base geneId = base ++ "/gene/" ++ geneId ++ "/references.json" := by
  have h1 : "/gene/" = "/" ++ ("gene" ++ "/") := by decide
  have h2 : "/references.json" = "/" ++ ("references" ++ ".json") := by decide
  rw [referencesURL, h1, h2]
  simp only [String.append_assoc]

@[simp]
theorem summaries_append (a b : List Step) : summaries (a ++ b) = summaries a ++ summaries b := by
  simp [summaries]

@[simp]
theorem referencesGets_append (a b : List Step) :
    referencesGets (a ++ b) = referencesGets a ++ referencesGets b := by
  simp [referencesGets]

theorem noFatal_append {a b : List Step} (ha : NoFatal a) (hb : NoFatal b) :
    NoFatal (a ++ b) := by
  intro s hs
  rcases List.mem_append.1 hs with h | h
  · exact ha s h
  · exact hb s h

theorem noFatal_nil : NoFatal [] := by
  intro s hs; simp at hs

theorem summaries_get (k : Kind) (u : String) (r : GetResult) (t : List Step) :
    summaries (Step.get k u r :: t) = summaries t := by
  simp [summaries, events, Step.event]

theorem summaries_decode (n : Nat) (t : List Step) :
    summaries (Step.decode n :: t) = summaries t := by
  simp [summaries, events, Step.event]

theorem summaries_log_url (e : Event) (t : List Step) (h : e.perUrl = true) :
    summaries (Step.log e :: t) = summaries t := by
  simp [summaries, events, Step.event, h]

theorem summaries_log_gene (e : Event) (t : List Step) (h : e.perUrl = false) :
    summaries (Step.log e :: t) = e :: summaries t := by
  simp [summaries, events, Step.event, h]

theorem referencesGets_log (e : Event) (t : List Step) :
    referencesGets (Step.log e :: t) = referencesGets t := by
  simp [referencesGets, Step.referencesUrl]

theorem referencesGets_decode (n : Nat) (t : List Step) :
    referencesGets (Step.decode n :: t) = referencesGets t := by
  simp [referencesGets, Step.referencesUrl]

theorem referencesGets_get (k : Kind) (u : String) (r : GetResult) (t : List Step)
    (hk : k ≠ Kind.References) :
    referencesGets (Step.get k u r :: t) = referencesGets t := by
  cases k <;>
    first
      | exact (hk rfl).elim
      | simp [referencesGets, Step.referencesUrl]

theorem referencesGets_get_references (u : String) (r : GetResult) (t : List Step) :
    referencesGets (Step.get Kind.References u r :: t) = u :: referencesGets t := by
  simp [referencesGets, Step.referencesUrl]

theorem fatal_get (k : Kind) (u : String) (r : GetResult)
    (hk : k ≠ Kind.References) (hr : r.emptyArray = false) :
    (Step.get k u r).fatal = false := by
  cases k <;>
    first
      | exact (hk rfl).elim
      | simp [Step.fatal, Step.referencesFailed, Step.emptyDecode, hr]

theorem noFatal_cons {s : Step} {t : List Step} (hs : s.fatal = false) (ht : NoFatal t) :
    NoFatal (s :: t) := by
  intro x hx
  rcases List.mem_cons.1 hx with rfl | h
  · exact hs
  · exact ht x h

theorem panelSteps_quiet (net : Net) (base geneId : String) :
    ∀ (items : List PanelItem) (n : Nat),
      NoFatal (panelSteps net base geneId items n)
        ∧ summaries (panelSteps net base geneId items n) = []
        ∧ referencesGets (panelSteps net base geneId items n) = [] := by
  intro items
  induction items with
  | nil => intro n; exact ⟨noFatal_nil, rfl, rfl⟩
  | cons item rest ih =>
    intro n
    obtain ⟨h1, h2, h3⟩ := ih (n + 1)
    have hp := (outcomeEvent_perUrl geneId (panelURL base item.Source)
      (net n (panelURL base item.Source))).1
    refine ⟨?_, ?_, ?_⟩
    · exact noFatal_cons rfl (noFatal_cons rfl h1)
    · rw [panelSteps, summaries_get, summaries_log_url _ _ hp, h2]
    · rw [panelSteps, referencesGets_get _ _ _ _ (by decide), referencesGets_log, h3]

theorem topSteps_shape (net : Net) (base geneId : String) (kind : Kind) (u : String) (n : Nat)
    (hk : kind ≠ Kind.References) :
    (topPanic (net n u) = none
        ∧ NoFatal (topSteps net base geneId kind u n)
        ∧ summaries (topSteps net base geneId kind u n) = []
        ∧ referencesGets (topSteps net base geneId kind u n) = [])
      ∨ (topPanic (net n u) = some (Panic.indexOutOfRange 119 0 0)
        ∧ topSteps net base geneId kind u n
          = [Step.get kind u (net n u), Step.log (fetchSuccess geneId u), Step.decode n]
        ∧ (net n u).emptyArray = true) := by
  have hp := (outcomeEvent_perUrl geneId u (net n u)).1
  unfold topSteps
  cases h : net n u with
  | err msg =>
    left
    rw [h] at hp
    refine ⟨rfl, ?_, ?_, ?_⟩
    · exact noFatal_cons (fatal_get _ _ _ hk rfl) (noFatal_cons rfl noFatal_nil)
    · rw [summaries_get, summaries_log_url _ _ hp]; rfl
    · rw [referencesGets_get _ _ _ _ hk, referencesGets_log]; rfl
  | resp code body =>
    rw [h] at hp
    by_cases hc : code = 200
    · subst hc
      simp only [ne_eq, not_true_eq_false, if_false]
      cases body with
      | invalid msg =>
        left
        refine ⟨rfl, ?_, ?_, ?_⟩
        · exact noFatal_cons (fatal_get _ _ _ hk rfl)
            (noFatal_cons rfl (noFatal_cons rfl (noFatal_cons rfl noFatal_nil)))
        · rw [summaries_get, summaries_log_url _ _ hp, summaries_decode,
            summaries_log_url (decodeError geneId u msg) _ rfl]
          rfl
        · rw [referencesGets_get _ _ _ _ hk, referencesGets_log, referencesGets_decode,
            referencesGets_log]
          rfl
      | pages ps =>
        cases ps with
        | nil =>
          right
          refine ⟨by simp [topPanic], ?_, by simp [GetResult.emptyArray]⟩
          simp [outcomeEvent]
        | cons p rest =>
          left
          obtain ⟨q1, q2, q3⟩ := panelSteps_quiet net base geneId p.Items (n + 1)
          refine ⟨rfl, ?_, ?_, ?_⟩
          · exact noFatal_cons (fatal_get _ _ _ hk rfl)
              (noFatal_cons rfl (noFatal_cons rfl q1))
          · rw [summaries_get, summaries_log_url _ _ hp, summaries_decode, q2]
          · rw [referencesGets_get _ _ _ _ hk, referencesGets_log, referencesGets_decode, q3]
    · left
      simp only [ne_eq, hc, not_false_eq_true, if_true]
      have he : (GetResult.resp code body).emptyArray = false := by
        cases body with
        | invalid msg => rfl
        | pages ps => cases ps <;> simp [GetResult.emptyArray, hc]
      refine ⟨topPanic_eq_none _ he, ?_, ?_, ?_⟩
      · exact noFatal_cons (fatal_get _ _ _ hk he) (noFatal_cons rfl noFatal_nil)
      · rw [summaries_get, summaries_log_url _ _ hp]; rfl
      · rw [referencesGets_get _ _ _ _ hk, referencesGets_log]; rfl

theorem refSteps_shape (net : Net) (base geneId : String) (n : Nat) :
    (refHalt (referencesURL base geneId) (net n (referencesURL base geneId)) = none
        ∧ NoFatal (refSteps net base geneId n)
        ∧ summaries (refSteps net base geneId n) = [geneSuccess geneId]
        ∧ referencesGets (refSteps net base geneId n) = [referencesURL base geneId])
      ∨ ((net n (referencesURL base geneId)).failed = true
        ∧ refSteps net base geneId n
          = [Step.get Kind.References (referencesURL base geneId)
              (net n (referencesURL base geneId)),
             Step.log (outcomeEvent geneId (referencesURL base geneId)
              (net n (referencesURL base geneId)))]) := by
  have hp := (outcomeEvent_perUrl geneId (referencesURL base geneId)
    (net n (referencesURL base geneId))).1
  unfold refSteps
  cases hf : (net n (referencesURL base geneId)).failed with
  | true => right; simp
  | false =>
    left
    simp only [Bool.false_eq_true, if_false]
    refine ⟨?_, ?_, ?_, ?_⟩
    · cases hr : net n (referencesURL base geneId) with
      | err msg => rw [hr] at hf; simp [GetResult.failed] at hf
      | resp code body =>
        rw [hr] at hf
        simp only [GetResult.failed, bne_eq_false_iff_eq] at hf
        simp [refHalt, hf]
    · refine noFatal_cons ?_ (noFatal_cons rfl (noFatal_cons rfl noFatal_nil))
      simp [Step.fatal, Step.referencesFailed, Step.emptyDecode, hf]
    · rw [summaries_get, summaries_log_url _ _ hp, summaries_log_gene (geneSuccess geneId) _ rfl]; rfl
    · rw [referencesGets_get_references, referencesGets_log, referencesGets_log]; rfl

theorem refStop_extend {base : String} {t : List Step} {h : Option Halt} (pre : List Step)
    (hpre : NoFatal pre) (hs : RefStop base t h) : RefStop base (pre ++ t) h := by
  obtain ⟨tOK, g, r, ht, hok, hf, hh⟩ := hs
  exact ⟨pre ++ tOK, g, r, by rw [ht, List.append_assoc], noFatal_append hpre hok, hf, hh⟩

theorem emptyStop_extend {t : List Step} {h : Option Halt} (pre : List Step)
    (hpre : NoFatal pre) (hs : EmptyStop t h) : EmptyStop (pre ++ t) h := by
  obtain ⟨tOK, g, kind, u, r, m, ht, hok, hf, hh⟩ := hs
  exact ⟨pre ++ tOK, g, kind, u, r, m, by rw [ht, List.append_assoc], noFatal_append hpre hok, hf, hh⟩

theorem emptyDecode_get (k : Kind) (u : String) (r : GetResult)
    (hk : k = Kind.GeneDetail ∨ k = Kind.ProteinDetail) (hr : r.emptyArray = true) :
    (Step.get k u r).emptyDecode = true := by
  rcases hk with rfl | rfl <;> exact hr

theorem lineSteps_shape (net : Net) (base geneId transId : String) (n : Nat) :
    (lineHalt net base geneId transId n = none
        ∧ NoFatal (lineSteps net base geneId transId n)
        ∧ summaries (lineSteps net base geneId transId n) = [geneSuccess geneId]
        ∧ referencesGets (lineSteps net base geneId transId n) = [referencesURL base geneId])
      ∨ RefStop base (lineSteps net base geneId transId n)
          (lineHalt net base geneId transId n)
      ∨ EmptyStop (lineSteps net base geneId transId n)
          (lineHalt net base geneId transId n) := by
  unfold lineSteps lineHalt
  simp only
  rcases topSteps_shape net base geneId Kind.GeneDetail (geneURL base geneId) n (by decide)
    with ⟨hp1, hf1, hs1, hr1⟩ | ⟨hp1, ht1, he1⟩
  · rw [hp1]
    simp only
    generalize n + (getUrls (topSteps net base geneId Kind.GeneDetail
      (geneURL base geneId) n)).length = n1
    rcases topSteps_shape net base geneId Kind.ProteinDetail
      (proteinURL base geneId transId) n1 (by decide) with ⟨hp2, hf2, hs2, hr2⟩ | ⟨hp2, ht2, he2⟩
    · rw [hp2]
      simp only
      generalize n1 + (getUrls (topSteps net base geneId Kind.ProteinDetail
        (proteinURL base geneId transId) n1)).length = n2
      rcases refSteps_shape net base geneId n2 with ⟨hh, hf3, hs3, hr3⟩ | ⟨hfail, ht3⟩
      · left
        refine ⟨hh, noFatal_append (noFatal_append hf1 hf2) hf3, ?_, ?_⟩
        · simp [hs1, hs2, hs3]
        · simp [hr1, hr2, hr3]
      · right; left
        exact ⟨_, geneId, _, by rw [ht3], noFatal_append hf1 hf2, hfail, rfl⟩
    · rw [hp2]
      right; right
      exact ⟨_, geneId, _, _, _, n1, by rw [ht2], hf1, emptyDecode_get _ _ _ (Or.inr rfl) he2,
        rfl⟩
  · rw [hp1]
    right; right
    exact ⟨[], geneId, _, _, _, n, by rw [ht1]; rfl, noFatal_nil,
      emptyDecode_get _ _ _ (Or.inl rfl) he1, rfl⟩

theorem geneIdOf_eq (line geneId : String) (rest : List String)
    (h : splitTab line = geneId :: rest) : geneIdOf line = geneId := by
  simp [geneIdOf, h]

theorem processLine_shape (net : Net) (base line : String) (st : St) (hst : NoFatal st.trace) :
    ((processLine net base line st).2 = none
        ∧ 2 ≤ (splitTab line).length
        ∧ NoFatal (processLine net base line st).1.trace
        ∧ summaries (processLine net base line st).1.trace
          = summaries st.trace ++ [geneSuccess (geneIdOf line)]
        ∧ referencesGets (processLine net base line st).1.trace
          = referencesGets st.trace ++ [referencesURL base (geneIdOf line)])
      ∨ RefStop base (processLine net base line st).1.trace (processLine net base line st).2
      ∨ EmptyStop (processLine net base line st).1.trace (processLine net base line st).2
      ∨ ((splitTab line).length < 2
        ∧ ShortStop (processLine net base line st).1.trace
            (processLine net base line st).2) := by
  rcases hs : splitTab line with _ | ⟨g, _ | ⟨t, rest⟩⟩
  · right; right; right
    simp [processLine, hs, ShortStop, hst]
  · right; right; right
    simp [processLine, hs, ShortStop, hst]
  · obtain ⟨h1, -, h3⟩ := processLine_spec net base line g t rest st hs
    rw [h1, h3, geneIdOf_eq line g _ hs]
    rcases lineSteps_shape net base g t st.nget with ⟨a, b, c, d⟩ | h | h
    · left
      exact ⟨a, by simp, noFatal_append hst b, by simp [c], by simp [d]⟩
    · right; left; exact refStop_extend _ hst h
    · right; right; left; exact emptyStop_extend _ hst h

theorem scanLoop_shape (net : Net) (base : String) :
    ∀ (lines : List String) (st : St), NoFatal st.trace →
      ((scanLoop net base lines st).2 = none
          ∧ (∀ l ∈ lines, 2 ≤ (splitTab l).length)
          ∧ NoFatal (scanLoop net base lines st).1.trace
          ∧ summaries (scanLoop net base lines st).1.trace
            = summaries st.trace ++ lines.map (fun l => geneSuccess (geneIdOf l))
          ∧ referencesGets (scanLoop net base lines st).1.trace
            = referencesGets st.trace ++ lines.map (fun l => referencesURL base (geneIdOf l)))
        ∨ RefStop base (scanLoop net base lines st).1.trace (scanLoop net base lines st).2
        ∨ EmptyStop (scanLoop net base lines st).1.trace (scanLoop net base lines st).2
        ∨ ((∃ l ∈ lines, (splitTab l).length < 2)
          ∧ ShortStop (scanLoop net base lines st).1.trace
              (scanLoop net base lines st).2) := by
  intro lines
  induction lines with
  | nil =>
    intro st hst
    left
    simp [scanLoop, hst]
  | cons line rest ih =>
    intro st hst
    rcases hp : processLine net base line st with ⟨st1, h1⟩
    have hshape := processLine_shape net base line st hst
    rw [hp] at hshape
    simp only at hshape
    cases h1 with
    | some h =>
      have heq : scanLoop net base (line :: rest) st = (st1, some h) := by
        simp [scanLoop, hp]
      rw [heq]
      rcases hshape with ⟨a, -⟩ | hr | he | ⟨hl, hsh⟩
      · simp at a
      · right; left; exact hr
      · right; right; left; exact he
      · right; right; right
        exact ⟨⟨line, List.mem_cons_self _ _, hl⟩, hsh⟩
    | none =>
      have heq : scanLoop net base (line :: rest) st = scanLoop net base rest st1 := by
        simp [scanLoop, hp]
      rw [heq]
      rcases hshape with ⟨-, htok, hnf, hsum, hrefs⟩ | hr | he | ⟨-, hsh⟩
      · rcases ih st1 hnf with ⟨a, b, c, d, e⟩ | hr | he | ⟨⟨l, hl, hlt⟩, hsh⟩
        · left
          refine ⟨a, ?_, c, ?_, ?_⟩
          · intro l hl
            rcases List.mem_cons.1 hl with rfl | hl
            · exact htok
            · exact b l hl
          · rw [d, hsum]; simp
          · rw [e, hrefs]; simp
        · right; left; exact hr
        · right; right; left; exact he
        · right; right; right
          exact ⟨⟨l, List.mem_cons_of_mem _ hl, hlt⟩, hsh⟩
      · obtain ⟨tOK, g, r, -, -, hf, hh⟩ := hr
        exfalso
        cases r with
        | err msg => simp [refHalt] at hh
        | resp code body =>
          simp only [GetResult.failed, bne_iff_ne, ne_eq] at hf
          simp [refHalt, hf] at hh
      · obtain ⟨tOK, g, kind, u, r, m, -, -, -, hh⟩ := he
        simp at hh
      · rcases hsh.2 with h | h <;> simp at h

theorem runDeferred_trace :
    ∀ (ds : List Nat) (st : St), (runDeferred ds st).trace = st.trace ++ ds.map Step.close := by
  intro ds
  induction ds with
  | nil => intro st; simp [runDeferred]
  | cons d rest ih => intro st; rw [runDeferred, ih]; simp [St.close]

theorem leave_trace (st : St) :
    (leave st).trace = st.trace ++ (st.deferred.map Step.close ++ [Step.closeFile]) := by
  simp [leave, runDeferred_trace]

theorem cleanup_quiet (t : List Step) (h : ∀ s ∈ t, s.isCleanup = true) :
    getUrls t = [] ∧ events t = [] ∧ NoFatal t := by
  induction t with
  | nil => exact ⟨rfl, rfl, noFatal_nil⟩
  | cons s rest ih =>
    obtain ⟨a, b, c⟩ := ih (fun x hx => h x (List.mem_cons_of_mem _ hx))
    have hs := h s (List.mem_cons_self _ _)
    simp only [getUrls, events] at a b
    cases s with
    | get k u r => simp [Step.isCleanup] at hs
    | log e => simp [Step.isCleanup] at hs
    | decode n => simp [Step.isCleanup] at hs
    | close n =>
      exact ⟨by simp [getUrls, Step.getUrl, a], by simp [events, Step.event, b],
        noFatal_cons rfl c⟩
    | closeFile =>
      exact ⟨by simp [getUrls, Step.getUrl, a], by simp [events, Step.event, b],
        noFatal_cons rfl c⟩

theorem leave_cleanup (st : St) :
    ∀ s ∈ st.deferred.map Step.close ++ [Step.closeFile], s.isCleanup = true := by
  intro s hs
  rcases List.mem_append.1 hs with h | h
  · obtain ⟨d, -, rfl⟩ := List.mem_map.1 h
    rfl
  · simp only [List.mem_singleton] at h
    rw [h]; rfl

theorem cacheGeneAction_opened (net : Net) (c : Context)
    (hlog : c.logFileErr = none) (hopen : c.openErr = none) :
    (cacheGeneAction net c).trace
        = (scanLoop net c.url c.lines St.init).1.trace
          ++ ((scanLoop net c.url c.lines St.init).1.deferred.map Step.close
            ++ [Step.closeFile])
      ∧ (cacheGeneAction net c).outcome
        = outcomeOf (scanLoop net c.url c.lines St.init).2 c.scanErr := by
  unfold cacheGeneAction
  rw [hlog, hopen]
  simp only
  rcases hs : scanLoop net c.url c.lines St.init with ⟨st, h⟩
  cases h with
  | none =>
    cases hse : c.scanErr <;> simp [leave_trace, outcomeOf]
  | some h =>
    cases h <;> simp [leave_trace, outcomeOf]

theorem cacheGeneAction_not_opened (net : Net) (c : Context)
    (h : ¬ (c.logFileErr = none ∧ c.openErr = none)) : (cacheGeneAction net c).trace = [] := by
  unfold cacheGeneAction
  cases h1 : c.logFileErr with
  | some e => rfl
  | none =>
    cases h2 : c.openErr with
    | some e => rfl
    | none => exact (h ⟨h1, h2⟩).elim

theorem split_unique {A B t1 t2 : List Step} {x y : Step}
    (h : t1 ++ x :: t2 = A ++ y :: B) (hA : NoFatal A) (hB : NoFatal B)
    (hx : x.fatal = true) : t1 = A ∧ x = y ∧ t2 = B := by
  rcases List.append_eq_append_iff.1 h with ⟨a, ha, hb⟩ | ⟨a, ha, hb⟩
  · cases a with
    | nil =>
      simp only [List.nil_append, List.cons.injEq] at hb
      exact ⟨by simpa using ha.symm, hb.1, hb.2⟩
    | cons z zs =>
      exfalso
      simp only [List.cons_append, List.cons.injEq] at hb
      have hm : x ∈ A := by rw [ha, hb.1]; simp
      rw [hA x hm] at hx
      exact Bool.false_ne_true hx
  · cases a with
    | nil =>
      simp only [List.nil_append, List.cons.injEq] at hb
      exact ⟨by simpa using ha, hb.1.symm, hb.2.symm⟩
    | cons z zs =>
      exfalso
      simp only [List.cons_append, List.cons.injEq] at hb
      have hm : x ∈ B := by rw [hb.2]; simp
      rw [hB x hm] at hx
      exact Bool.false_ne_true hx

theorem not_mem_of_noFatal {t t1 t2 : List Step} {x : Step} (ht : NoFatal t)
    (h : t = t1 ++ x :: t2) (hx : x.fatal = true) : False := by
  have hm : x ∈ t := by rw [h]; simp
  rw [ht x hm] at hx
  exact Bool.false_ne_true hx

/-- The ways a run that opened its input can end, read off its trace. -/
theorem cacheGeneAction_shape (net : Net) (c : Context)
    (hlog : c.logFileErr = none) (hopen : c.openErr = none) :
    (NoFatal (cacheGeneAction net c).trace
        ∧ (cacheGeneAction net c).outcome = outcomeOf none c.scanErr
        ∧ (∀ l ∈ c.lines, 2 ≤ (splitTab l).length)
        ∧ summaries (cacheGeneAction net c).trace
          = c.lines.map (fun l => geneSuccess (geneIdOf l))
        ∧ referencesGets (cacheGeneAction net c).trace
          = c.lines.map (fun l => referencesURL c.url (geneIdOf l)))
      ∨ (∃ tOK g r tl,
          (cacheGeneAction net c).trace
            = tOK ++ Step.get Kind.References (referencesURL c.url g) r
              :: (Step.log (outcomeEvent g (referencesURL c.url g) r) :: tl)
          ∧ NoFatal tOK ∧ (∀ s ∈ tl, s.isCleanup = true) ∧ r.failed = true
          ∧ (cacheGeneAction net c).outcome
            = outcomeOf (refHalt (referencesURL c.url g) r) c.scanErr)
      ∨ (∃ tOK g kind u r m tl,
          (cacheGeneAction net c).trace
            = tOK ++ Step.get kind u r
              :: (Step.log (fetchSuccess g u) :: Step.decode m :: tl)
          ∧ NoFatal tOK ∧ (∀ s ∈ tl, s.isCleanup = true)
          ∧ (Step.get kind u r).emptyDecode = true
          ∧ (cacheGeneAction net c).outcome
            = Outcome.panicked (Panic.indexOutOfRange 119 0 0))
      ∨ (NoFatal (cacheGeneAction net c).trace
        ∧ (∃ l ∈ c.lines, (splitTab l).length < 2)
        ∧ ((cacheGeneAction net c).outcome = Outcome.panicked (Panic.indexOutOfRange 78 0 0)
          ∨ (cacheGeneAction net c).outcome
            = Outcome.panicked (Panic.indexOutOfRange 79 1 1))) := by
  obtain ⟨ht, ho⟩ := cacheGeneAction_opened net c hlog hopen
  have hcl := leave_cleanup (scanLoop net c.url c.lines St.init).1
  obtain ⟨cu, ce, cf⟩ := cleanup_quiet _ hcl
  rw [ht, ho]
  rcases scanLoop_shape net c.url c.lines St.init noFatal_nil with
    ⟨a, b, d, e, f⟩ | ⟨tOK, g, r, htr, hok, hf, hh⟩ |
    ⟨tOK, g, kind, u, r, m, htr, hok, hf, hh⟩ | ⟨hl, hnf, hh⟩
  · left
    refine ⟨noFatal_append d cf, by rw [a], b, ?_, ?_⟩
    · have hz : summaries ((scanLoop net c.url c.lines St.init).1.deferred.map Step.close
          ++ [Step.closeFile]) = [] := by
        simp only [summaries, ce]; rfl
      rw [summaries_append, e, hz]; simp [St.init, summaries, events]
    · have hz : referencesGets ((scanLoop net c.url c.lines St.init).1.deferred.map Step.close
          ++ [Step.closeFile]) = [] := by
        simp [referencesGets, Step.referencesUrl, List.filterMap_map]
      rw [referencesGets_append, f, hz]; simp [St.init, referencesGets]
  · right; left
    exact ⟨tOK, g, r, _, by rw [htr]; simp, hok, hcl, hf, by rw [hh]⟩
  · right; right; left
    exact ⟨tOK, g, kind, u, r, m, _, by rw [htr]; simp, hok, hcl, hf, by rw [hh]; rfl⟩
  · right; right; right
    refine ⟨noFatal_append hnf cf, hl, ?_⟩
    rcases hh with h | h
    · left; rw [h]; rfl
    · right; rw [h]; rfl

/-! ## The claims -/

/-- C9: for a record `(geneId, transId)` whose top-level responses do not
decode to an empty array, the URLs requested are `walk` of the gene URL, then
`walk` of the protein URL, then the references URL, whatever the panel GETs
return; and the only bodies ever decoded are those of the two top-level GETs
(the first GET of the record and the one after the gene walk). -/
theorem record_urls_are_walks (net : Net) (base line geneId transId : String)
    (rest : List String) (st : St)
    (hline : splitTab line = geneId :: transId :: rest)
    (hgene : (net st.nget (geneURL base geneId)).emptyArray = false)
    (hprot : (net (st.nget + (walk base (geneURL base geneId)
        (net st.nget (geneURL base geneId))).length)
        (proteinURL base geneId transId)).emptyArray = false) :
    getUrls (recordTrace net base line st)
        = walk base (geneURL base geneId) (net st.nget (geneURL base geneId))
          ++ walk base (proteinURL base geneId transId)
              (net (st.nget + (walk base (geneURL base geneId)
                (net st.nget (geneURL base geneId))).length) (proteinURL base geneId transId))
          ++ [referencesURL base geneId]
      ∧ ∀ b ∈ decodes (recordTrace net base line st),
          b = st.nget ∨ b = st.nget + (walk base (geneURL base geneId)
            (net st.nget (geneURL base geneId))).length := by
  rw [recordTrace_eq net base line geneId transId rest st hline]
  unfold lineSteps
  simp only [getUrls_topSteps]
  rw [topPanic_eq_none _ hgene]
  simp only
  rw [topPanic_eq_none _ hprot]
  simp only [getUrls_append, getUrls_topSteps, getUrls_refSteps, decodes_append,
    decodes_refSteps, List.append_nil, List.mem_append]
  refine ⟨trivial, ?_⟩
  intro b hb
  rcases hb with hb | hb
  · exact Or.inl (decodes_topSteps _ _ _ _ _ _ b hb)
  · exact Or.inr (decodes_topSteps _ _ _ _ _ _ b hb)

/-- C5 (amended): in a record's walk that does not crash on an empty decoded
array, the GETs are, in order: the GeneDetail GET, one PanelSource GET of
`base ++ item.Source` for every item of the GeneDetail response in original
order, the ProteinDetail GET, one PanelSource GET for every item of the
ProteinDetail response in original order, and last the References GET.  The
items of a response are `presp[0].Items` when it has status 200 and decodes,
and none otherwise. -/
theorem record_get_order (net : Net) (base line geneId transId : String)
    (rest : List String) (st : St)
    (hline : splitTab line = geneId :: transId :: rest)
    (hrun : (processLine net base line st).2
      ≠ some (Halt.panic (Panic.indexOutOfRange 119 0 0))) :
    requests (recordTrace net base line st)
      = (Kind.GeneDetail, geneURL base geneId)
          :: (net st.nget (geneURL base geneId)).panelItems.map
              (fun item => (Kind.PanelSource, base ++ item.Source))
        ++ (Kind.ProteinDetail, proteinURL base geneId transId)
          :: (net (st.nget + 1 + (net st.nget (geneURL base geneId)).panelItems.length)
                (proteinURL base geneId transId)).panelItems.map
              (fun item => (Kind.PanelSource, base ++ item.Source))
        ++ [(Kind.References, referencesURL base geneId)] := by
  have hidx : ∀ r : GetResult, topPanic r = none
      ∨ topPanic r = some (Panic.indexOutOfRange 119 0 0) := by
    intro r
    cases r with
    | err msg => exact Or.inl rfl
    | resp code body =>
      cases body with
      | invalid msg => exact Or.inl rfl
      | pages ps =>
        cases ps with
        | nil => by_cases hc : code = 200 <;> simp [topPanic, hc]
        | cons q qs => exact Or.inl rfl
  rw [(processLine_spec net base line geneId transId rest st hline).2.2] at hrun
  rw [recordTrace_eq net base line geneId transId rest st hline]
  unfold lineHalt at hrun
  unfold lineSteps
  simp only [topSteps_gets] at hrun ⊢
  rcases hidx (net st.nget (geneURL base geneId)) with h1 | h1
  · rw [h1] at hrun ⊢
    simp only at hrun ⊢
    rcases hidx (net (st.nget + 1 + (net st.nget (geneURL base geneId)).panelItems.length)
      (proteinURL base geneId transId)) with h2 | h2
    · rw [h2]
      simp only [requests_append, requests_topSteps, requests_refSteps]
    · rw [h2] at hrun
      exact (hrun rfl).elim
  · rw [h1] at hrun
    exact (hrun rfl).elim

/-- C4: when every GET of a record's walk returns status 200 and both
top-level bodies decode to a non-empty array with first elements `p1` and
`p2`, the walk completes, the per-URL entries logged are exactly the success
entries of the 2 + |p1.Items| + |p2.Items| + 1 URLs in request order, and
exactly one per-gene summary entry is logged. -/
theorem all_ok_walk_events (net : Net) (base line geneId transId : String)
    (rest : List String) (st : St) (p1 p2 : PageResponse) (ps1 ps2 : List PageResponse)
    (hline : splitTab line = geneId :: transId :: rest)
    (hgene : net st.nget (geneURL base geneId) = GetResult.resp 200 (Body.pages (p1 :: ps1)))
    (hprot : net (st.nget + 1 + p1.Items.length) (proteinURL base geneId transId)
      = GetResult.resp 200 (Body.pages (p2 :: ps2)))
    (h200 : ∀ m u, st.nget ≤ m → m < st.nget + (2 + p1.Items.length + p2.Items.length + 1) →
      ∃ body, net m u = GetResult.resp 200 body) :
    (processLine net base line st).2 = none
      ∧ urlEvents (recordTrace net base line st)
        = ((geneURL base geneId :: p1.Items.map (fun item => panelURL base item.Source))
            ++ (proteinURL base geneId transId
              :: p2.Items.map (fun item => panelURL base item.Source))
            ++ [referencesURL base geneId]).map (fetchSuccess geneId)
      ∧ (urlEvents (recordTrace net base line st)).length
        = 2 + p1.Items.length + p2.Items.length + 1
      ∧ summaries (recordTrace net base line st) = [geneSuccess geneId] := by
  have hw1 : walk base (geneURL base geneId) (net st.nget (geneURL base geneId))
      = geneURL base geneId :: p1.Items.map (fun item => base ++ item.Source) := by
    rw [hgene]; simp [walk]
  have hn1 : st.nget + (getUrls (topSteps net base geneId Kind.GeneDetail
      (geneURL base geneId) st.nget)).length = st.nget + 1 + p1.Items.length := by
    rw [getUrls_topSteps, hw1]; simp; omega
  obtain ⟨bodyr, hr⟩ := h200 (st.nget + 1 + p1.Items.length + (1 + p2.Items.length))
    (referencesURL base geneId) (by omega) (by omega)
  have he1 : events (topSteps net base geneId Kind.GeneDetail (geneURL base geneId) st.nget)
      = (geneURL base geneId :: p1.Items.map (fun item => panelURL base item.Source)).map
          (fetchSuccess geneId) := by
    have hp := events_panelSteps_ok net base geneId p1.Items (st.nget + 1)
      (fun m u a b => h200 m u (by omega) (by omega))
    simp only [events] at hp
    simp [topSteps, hgene, events, Step.event, outcomeEvent, hp]
  have he2 : events (topSteps net base geneId Kind.ProteinDetail
      (proteinURL base geneId transId) (st.nget + 1 + p1.Items.length))
      = (proteinURL base geneId transId
          :: p2.Items.map (fun item => panelURL base item.Source)).map
          (fetchSuccess geneId) := by
    have hp := events_panelSteps_ok net base geneId p2.Items
      (st.nget + 1 + p1.Items.length + 1) (fun m u a b => h200 m u (by omega) (by omega))
    simp only [events] at hp
    simp [topSteps, hprot, events, Step.event, outcomeEvent, hp]
  have hn2 : (getUrls (topSteps net base geneId Kind.ProteinDetail
      (proteinURL base geneId transId) (st.nget + 1 + p1.Items.length))).length
      = 1 + p2.Items.length := by
    rw [getUrls_topSteps, hprot]; simp [walk]; omega
  have he3 : events (refSteps net base geneId
      (st.nget + 1 + p1.Items.length + (1 + p2.Items.length)))
      = [fetchSuccess geneId (referencesURL base geneId), geneSuccess geneId] := by
    simp [refSteps, hr, events, Step.event, outcomeEvent, GetResult.failed]
  have hev : events (recordTrace net base line st)
      = ((geneURL base geneId :: p1.Items.map (fun item => panelURL base item.Source))
            ++ (proteinURL base geneId transId
              :: p2.Items.map (fun item => panelURL base item.Source))
            ++ [referencesURL base geneId]).map (fetchSuccess geneId)
          ++ [geneSuccess geneId] := by
    rw [recordTrace_eq net base line geneId transId rest st hline]
    unfold lineSteps
    simp only [hgene, topPanic, ne_eq, not_true_eq_false, if_false]
    rw [hn1]
    simp only [hprot, topPanic, ne_eq, not_true_eq_false, if_false]
    rw [hn2]
    simp only [events_append, he1, he2, he3]
    simp
  have hfilter : ∀ l : List String,
      (l.map (fetchSuccess geneId)).filter Event.perUrl = l.map (fetchSuccess geneId) := by
    intro l
    rw [List.filter_eq_self]
    intro e he
    obtain ⟨u, -, rfl⟩ := List.mem_map.1 he
    rfl
  have hfilter2 : ∀ l : List String,
      (l.map (fetchSuccess geneId)).filter (fun e => !e.perUrl) = [] := by
    intro l
    rw [List.filter_eq_nil_iff]
    intro e he
    obtain ⟨u, -, rfl⟩ := List.mem_map.1 he
    simp [Event.perUrl, fetchSuccess]
  have hurl : urlEvents (recordTrace net base line st)
      = ((geneURL base geneId :: p1.Items.map (fun item => panelURL base item.Source))
            ++ (proteinURL base geneId transId
              :: p2.Items.map (fun item => panelURL base item.Source))
            ++ [referencesURL base geneId]).map (fetchSuccess geneId) := by
    unfold urlEvents
    rw [hev, List.filter_append, hfilter]
    simp [Event.perUrl, geneSuccess]
  refine ⟨?_, hurl, ?_, ?_⟩
  · rw [(processLine_spec net base line geneId transId rest st hline).2.2]
    unfold lineHalt
    simp only [hgene, topPanic, ne_eq, not_true_eq_false, if_false]
    rw [hn1]
    simp only [hprot, topPanic, ne_eq, not_true_eq_false, if_false]
    rw [hn2, hr]
    simp [refHalt]
  · rw [hurl]; simp; omega
  · unfold summaries
    rw [hev, List.filter_append, hfilter2]
    simp [Event.perUrl, geneSuccess]

/-- C7 (amended): for every input line and engine state, the log entries of
the record are exactly those due for its GETs in order: each GET is followed
by one result entry (kind fetch, http or caching, with its url), a top-level
GET answered 200 with an undecodable body by one more entry of kind decoding,
and a successful References GET by the per-gene entry.  So the result entries
are as many as the GETs, the decoding entries as many as the top-level 200
responses that failed to decode, and the per-URL entries as many as both
together. -/
theorem one_outcome_event_per_get (net : Net) (base line : String) (st : St) :
    events (recordTrace net base line st)
        = expectedEvents (geneIdOf line) (recordTrace net base line st)
      ∧ (outcomeEvents (recordTrace net base line st)).length
        = (getUrls (recordTrace net base line st)).length
      ∧ (decodeErrors (recordTrace net base line st)).length
        = decodeFailures (recordTrace net base line st)
      ∧ (urlEvents (recordTrace net base line st)).length
        = (getUrls (recordTrace net base line st)).length
          + decodeFailures (recordTrace net base line st) := by
  have hbal : Balanced (geneIdOf line) (recordTrace net base line st) := by
    rcases hs : splitTab line with _ | ⟨g, _ | ⟨t, rest⟩⟩
    · rw [recordTrace_short net base line st (by simp [hs])]; exact balanced_nil _
    · rw [recordTrace_short net base line st (by simp [hs])]; exact balanced_nil _
    · rw [recordTrace_eq net base line g t rest st hs]
      rw [geneIdOf_eq line g _ hs]
      exact balanced_lineSteps net base g t st.nget
  obtain ⟨c1, c2⟩ := expectedEvents_counts (geneIdOf line) (recordTrace net base line st)
  unfold Balanced at hbal
  have h2 : (outcomeEvents (recordTrace net base line st)).length
      = (getUrls (recordTrace net base line st)).length := by
    rw [outcomeEvents, hbal]; exact c1
  have h3 : (decodeErrors (recordTrace net base line st)).length
      = decodeFailures (recordTrace net base line st) := by
    rw [decodeErrors, hbal]; exact c2
  refine ⟨hbal, h2, h3, ?_⟩
  rw [urlEvents, perUrl_partition, ← h2, ← h3]
  rfl

/-- C6: the four URLs are the plain concatenations of the templates, with
no validation; the example of the specification holds; the panel loop
requests `base ++ item.Source` for every item in order; and every GET of a
record's walk has the URL of the template of its kind, a panel URL being
`base ++ item.Source` for an item of the first page decoded from a top-level
response of that walk. -/
theorem url_templates (base geneId transId source : String) :
    geneURL base geneId = base ++ "/gene/" ++ geneId ++ "/gene.json"
      ∧ proteinURL base geneId transId
        = base ++ "/gene/" ++ geneId ++ "/protein/" ++ transId ++ ".json"
      ∧ panelURL base source = base ++ source
      ∧ referencesURL base geneId = base ++ "/gene/" ++ geneId ++ "/references.json"
      ∧ geneURL "http://dictybase.org" "DDB_G123"
        = "http://dictybase.org/gene/DDB_G123/gene.json"
      ∧ (∀ (net : Net) (items : List PanelItem) (st : St),
          getUrls (fetchPanels net base geneId items st).trace
            = getUrls st.trace ++ items.map (fun item => base ++ item.Source))
      ∧ (∀ (net : Net) (line : String) (rest : List String) (st : St),
          splitTab line = geneId :: transId :: rest →
          ∀ (k : Kind) (u : String) (r : GetResult),
            Step.get k u r ∈ recordTrace net base line st →
            (k = Kind.GeneDetail ∧ u = base ++ "/gene/" ++ geneId ++ "/gene.json")
              ∨ (k = Kind.ProteinDetail
                ∧ u = base ++ "/gene/" ++ geneId ++ "/protein/" ++ transId ++ ".json")
              ∨ (k = Kind.PanelSource ∧ ∃ k0 u0 p ps item,
                  Step.get k0 u0 (GetResult.resp 200 (Body.pages (p :: ps)))
                      ∈ recordTrace net base line st
                    ∧ k0 ≠ Kind.PanelSource ∧ item ∈ p.Items ∧ u = base ++ item.Source)
              ∨ (k = Kind.References
                ∧ u = base ++ "/gene/" ++ geneId ++ "/references.json")) := by
  refine ⟨geneURL_eq _ _, proteinURL_eq _ _ _, rfl, referencesURL_eq _ _, by decide, ?_, ?_⟩
  · intro net items st
    rw [(fetchPanels_spec net base geneId items st).1, getUrls_append, getUrls_panelSteps]
    rfl
  · intro net line rest st hline k u r hmem
    rw [recordTrace_eq net base line geneId transId rest st hline] at hmem ⊢
    rw [← geneURL_eq, ← proteinURL_eq, ← referencesURL_eq]
    have top1 : ∀ {t : List Step},
        topSteps net base geneId Kind.GeneDetail (geneURL base geneId) st.nget ⊆ t →
        Step.get k u r ∈ topSteps net base geneId Kind.GeneDetail (geneURL base geneId)
          st.nget →
        (k = Kind.GeneDetail ∧ u = geneURL base geneId)
          ∨ (k = Kind.ProteinDetail ∧ u = proteinURL base geneId transId)
          ∨ (k = Kind.PanelSource ∧ ∃ k0 u0 p ps item,
              Step.get k0 u0 (GetResult.resp 200 (Body.pages (p :: ps))) ∈ t
                ∧ k0 ≠ Kind.PanelSource ∧ item ∈ p.Items ∧ u = base ++ item.Source)
          ∨ (k = Kind.References ∧ u = referencesURL base geneId) := by
      intro t hsub h
      rcases mem_topSteps _ _ _ _ _ _ _ _ _ h with h | ⟨hk, p, ps, item, hm, hit, hu⟩
      · exact Or.inl h
      · exact Or.inr (Or.inr (Or.inl ⟨hk, _, _, p, ps, item, hsub hm, by decide, hit, hu⟩))
    have top2 : ∀ {t : List Step} (n : Nat),
        topSteps net base geneId Kind.ProteinDetail (proteinURL base geneId transId) n ⊆ t →
        Step.get k u r ∈ topSteps net base geneId Kind.ProteinDetail
          (proteinURL base geneId transId) n →
        (k = Kind.GeneDetail ∧ u = geneURL base geneId)
          ∨ (k = Kind.ProteinDetail ∧ u = proteinURL base geneId transId)
          ∨ (k = Kind.PanelSource ∧ ∃ k0 u0 p ps item,
              Step.get k0 u0 (GetResult.resp 200 (Body.pages (p :: ps))) ∈ t
                ∧ k0 ≠ Kind.PanelSource ∧ item ∈ p.Items ∧ u = base ++ item.Source)
          ∨ (k = Kind.References ∧ u = referencesURL base geneId) := by
      intro t n hsub h
      rcases mem_topSteps _ _ _ _ _ _ _ _ _ h with h | ⟨hk, p, ps, item, hm, hit, hu⟩
      · exact Or.inr (Or.inl h)
      · exact Or.inr (Or.inr (Or.inl ⟨hk, _, _, p, ps, item, hsub hm, by decide, hit, hu⟩))
    unfold lineSteps at hmem ⊢
    simp only at hmem ⊢
    split at hmem
    · exact top1 (fun _ h => h) hmem
    · split at hmem
      · rcases List.mem_append.1 hmem with h | h
        · exact top1 (fun _ h => List.mem_append_left _ h) h
        · exact top2 _ (fun _ h => List.mem_append_right _ h) h
      · rcases List.mem_append.1 hmem with h | h
        · rcases List.mem_append.1 h with h | h
          · exact top1 (fun _ h =>
              List.mem_append_left _ (List.mem_append_left _ h)) h
          · exact top2 _ (fun _ h =>
              List.mem_append_left _ (List.mem_append_right _ h)) h
        · exact Or.inr (Or.inr (Or.inr (mem_refSteps _ _ _ _ _ _ _ h)))

/-- C1: in every run, a References GET that fails (transport error or a
status other than 200) is followed by nothing but its own error entry and the
closing of bodies and of the input file: no GET is issued and no entry is
logged for any later record, and the run does not end with a nil return. -/
theorem references_failure_ends_run (net : Net) (c : Context) (t1 t2 : List Step)
    (u : String) (r : GetResult)
    (hsplit : (cacheGeneAction net c).trace = t1 ++ Step.get Kind.References u r :: t2)
    (hfail : r.failed = true) :
    getUrls t2 = []
      ∧ (∃ g, u = referencesURL c.url g ∧ events t2 = [outcomeEvent g u r]
          ∧ (outcomeEvent g u r).level = Level.error)
      ∧ (cacheGeneAction net c).outcome ≠ Outcome.returned none := by
  have hx : (Step.get Kind.References u r).fatal = true := by
    simp [Step.fatal, Step.referencesFailed, hfail]
  by_cases hopen : c.logFileErr = none ∧ c.openErr = none
  · rcases cacheGeneAction_shape net c hopen.1 hopen.2 with
      ⟨hnf, -⟩ | ⟨tOK, g, r0, tl, htr, hok, hcl, hf, hout⟩ |
      ⟨tOK, g, kind, u0, r0, m, tl, htr, hok, hcl, hf, -⟩ | ⟨hnf, -⟩
    · exact (not_mem_of_noFatal hnf hsplit hx).elim
    · obtain ⟨cu, ce, cf⟩ := cleanup_quiet tl hcl
      rw [htr] at hsplit
      obtain ⟨-, hxy, ht2⟩ := split_unique hsplit.symm hok (noFatal_cons rfl cf) hx
      simp only [Step.get.injEq, true_and] at hxy
      obtain ⟨hu, hr⟩ := hxy
      subst hu hr
      refine ⟨?_, ⟨g, rfl, ?_, ?_⟩, ?_⟩
      · rw [ht2]; simpa [getUrls, Step.getUrl] using cu
      · rw [ht2]
        simp only [events] at ce
        simp [events, Step.event, ce]
      · cases r with
        | err msg => rfl
        | resp code body =>
          simp only [GetResult.failed, bne_iff_ne, ne_eq] at hfail
          simp [outcomeEvent, hfail, httpError]
      · rw [hout]
        cases r with
        | err msg => simp [refHalt, outcomeOf]
        | resp code body =>
          simp only [GetResult.failed, bne_iff_ne, ne_eq] at hfail
          simp [refHalt, hfail, outcomeOf]
    · exfalso
      obtain ⟨cu, ce, cf⟩ := cleanup_quiet tl hcl
      rw [htr] at hsplit
      obtain ⟨-, hxy, -⟩ := split_unique hsplit.symm hok
        (noFatal_cons rfl (noFatal_cons rfl cf)) hx
      simp only [Step.get.injEq] at hxy
      obtain ⟨hk, -, -⟩ := hxy
      subst hk
      simp [Step.emptyDecode] at hf
    · exact (not_mem_of_noFatal hnf hsplit hx).elim
  · rw [cacheGeneAction_not_opened net c hopen] at hsplit
    simp at hsplit

/-- C3: in a run that opened its input, in which every line has at least two
tab-separated tokens, every References GET returned status 200 and no
top-level body decoded to the empty array, whatever the other fetches did,
the loop processes every line in input order: the References GETs of the run
are those of the lines in order, the per-gene summary entries are those of
the lines in order, and the function returns without abort or panic (nil
unless the scanner reports a read error). -/
theorem all_records_processed (net : Net) (c : Context)
    (hlog : c.logFileErr = none) (hopen : c.openErr = none)
    (htok : ∀ l ∈ c.lines, 2 ≤ (splitTab l).length)
    (hrefs : ∀ s ∈ (cacheGeneAction net c).trace, s.referencesFailed = false)
    (hne : ∀ s ∈ (cacheGeneAction net c).trace, s.emptyDecode = false) :
    referencesGets (cacheGeneAction net c).trace
        = c.lines.map (fun l => referencesURL c.url (geneIdOf l))
      ∧ summaries (cacheGeneAction net c).trace
        = c.lines.map (fun l => geneSuccess (geneIdOf l))
      ∧ (cacheGeneAction net c).outcome
        = Outcome.returned (c.scanErr.map (ExitError.mk 2)) := by
  have hnf : NoFatal (cacheGeneAction net c).trace := by
    intro s hs
    simp [Step.fatal, hrefs s hs, hne s hs]
  rcases cacheGeneAction_shape net c hlog hopen with
    ⟨-, hout, -, hsum, hrg⟩ | ⟨tOK, g, r0, tl, htr, -, -, hf, -⟩ |
    ⟨tOK, g, kind, u0, r0, m, tl, htr, -, -, hf, -⟩ | ⟨-, ⟨l, hl, hlt⟩, -⟩
  · refine ⟨hrg, hsum, ?_⟩
    rw [hout]
    cases c.scanErr <;> rfl
  · exact (not_mem_of_noFatal hnf htr
      (by simp [Step.fatal, Step.referencesFailed, hf])).elim
  · exact (not_mem_of_noFatal hnf htr (by simp [Step.fatal, hf])).elim
  · have := htok l hl
    omega

/-- C10: in every run, a GeneDetail or ProteinDetail GET answered with status
200 and a body that decodes to the empty array makes the function panic on
`presp[0]` (line 119): after that GET only its success entry is logged (no
decoding entry) and no further GET is issued, for this or any later record.
Conversely, a run without such a response never panics on `presp[0]`. -/
theorem empty_array_crashes (net : Net) (c : Context) :
    (∀ (t1 t2 : List Step) (kind : Kind) (u : String),
        (cacheGeneAction net c).trace
          = t1 ++ Step.get kind u (GetResult.resp 200 (Body.pages [])) :: t2 →
        kind = Kind.GeneDetail ∨ kind = Kind.ProteinDetail →
        (cacheGeneAction net c).outcome = Outcome.panicked (Panic.indexOutOfRange 119 0 0)
          ∧ getUrls t2 = []
          ∧ ∃ g, events t2 = [fetchSuccess g u])
      ∧ ((∀ s ∈ (cacheGeneAction net c).trace, s.emptyDecode = false) →
        (cacheGeneAction net c).outcome
          ≠ Outcome.panicked (Panic.indexOutOfRange 119 0 0)) := by
  constructor
  · intro t1 t2 kind u hsplit hk
    have he : (Step.get kind u (GetResult.resp 200 (Body.pages []))).emptyDecode = true :=
      emptyDecode_get _ _ _ hk rfl
    have hx : (Step.get kind u (GetResult.resp 200 (Body.pages []))).fatal = true := by
      simp [Step.fatal, he]
    by_cases hopen : c.logFileErr = none ∧ c.openErr = none
    · rcases cacheGeneAction_shape net c hopen.1 hopen.2 with
        ⟨hnf, -⟩ | ⟨tOK, g, r0, tl, htr, hok, hcl, hf, -⟩ |
        ⟨tOK, g, kind0, u0, r0, m, tl, htr, hok, hcl, hf, hout⟩ | ⟨hnf, -⟩
      · exact (not_mem_of_noFatal hnf hsplit hx).elim
      · exfalso
        obtain ⟨cu, ce, cf⟩ := cleanup_quiet tl hcl
        rw [htr] at hsplit
        obtain ⟨-, hxy, -⟩ := split_unique hsplit.symm hok (noFatal_cons rfl cf) hx
        simp only [Step.get.injEq] at hxy
        obtain ⟨hk0, -, -⟩ := hxy
        rcases hk with rfl | rfl <;> simp at hk0
      · obtain ⟨cu, ce, cf⟩ := cleanup_quiet tl hcl
        rw [htr] at hsplit
        obtain ⟨-, hxy, ht2⟩ := split_unique hsplit.symm hok
          (noFatal_cons rfl (noFatal_cons rfl cf)) hx
        simp only [Step.get.injEq] at hxy
        obtain ⟨-, hu, -⟩ := hxy
        subst hu
        refine ⟨hout, ?_, g, ?_⟩
        · rw [ht2]; simpa [getUrls, Step.getUrl] using cu
        · rw [ht2]
          simp only [events] at ce
          simp [events, Step.event, ce]
      · exact (not_mem_of_noFatal hnf hsplit hx).elim
    · rw [cacheGeneAction_not_opened net c hopen] at hsplit
      simp at hsplit
  · intro hne hout
    by_cases hopen : c.logFileErr = none ∧ c.openErr = none
    · rcases cacheGeneAction_shape net c hopen.1 hopen.2 with
        ⟨-, ho, -⟩ | ⟨tOK, g, r0, tl, htr, hok, hcl, hf, ho⟩ |
        ⟨tOK, g, kind0, u0, r0, m, tl, htr, hok, hcl, hf, -⟩ | ⟨-, -, ho⟩
      · rw [ho] at hout
        cases hse : c.scanErr <;> simp [hse, outcomeOf] at hout
      · rw [ho] at hout
        cases r0 with
        | err msg => simp [refHalt, outcomeOf] at hout
        | resp code body =>
          simp only [GetResult.failed, bne_iff_ne, ne_eq] at hf
          simp [refHalt, hf, outcomeOf] at hout
      · have hm : Step.get kind0 u0 r0 ∈ (cacheGeneAction net c).trace := by
          rw [htr]; simp
        rw [hne _ hm] at hf
        exact Bool.false_ne_true hf
      · rcases ho with h | h <;> rw [h] at hout <;> simp at hout
    · unfold cacheGeneAction at hout
      cases h1 : c.logFileErr with
      | some e => simp [h1] at hout
      | none =>
        cases h2 : c.openErr with
        | some e => simp [h1, h2] at hout
        | none => exact hopen ⟨h1, h2⟩

/-! ## Evaluations at concrete inputs -/

/-- Witness of C1: gene `A` gets 500 on its references, gene `B` follows it in
the input; after the failing GET the trace holds its error entry and closes only. -/
theorem references_failure_ends_run_witness :
    getUrls abortTail = []
      ∧ (∃ g, "http://example.test/gene/A/references.json" = referencesURL ctxTwo.url g
          ∧ events abortTail = [outcomeEvent g "http://example.test/gene/A/references.json"
              (GetResult.resp 500 (Body.invalid ""))]
          ∧ (outcomeEvent g "http://example.test/gene/A/references.json"
              (GetResult.resp 500 (Body.invalid ""))).level = Level.error)
      ∧ (cacheGeneAction netRefs500 ctxTwo).outcome ≠ Outcome.returned none :=
  references_failure_ends_run netRefs500 ctxTwo abortHead abortTail
    "http://example.test/gene/A/references.json" (GetResult.resp 500 (Body.invalid ""))
    (by decide) (by decide)

/-- C2 (code defect): when the References GET of the only record returns
status 500, the error entry is logged and `cacheGeneAction` then panics on
the nil `err` of line 170 instead of returning an exit error; the sibling
branch for a transport error returns the exit error with code 2. -/
theorem references_http_error_panics :
    (cacheGeneAction netRefs500 ctxOne).outcome
        = Outcome.panicked (Panic.nilDereference 170)
      ∧ events (cacheGeneAction netRefs500 ctxOne).trace
        = [httpError "A" "http://example.test/gene/A/gene.json" 404,
           httpError "A" "http://example.test/gene/A/protein/T1.json" 404,
           httpError "A" "http://example.test/gene/A/references.json" 500]
      ∧ (cacheGeneAction netRefsDown ctxOne).outcome
        = Outcome.returned (some ⟨2,
            "error fetching url http://example.test/gene/A/references.json connection refused"⟩) := by
  decide

/-- Witness of C3: two lines, every GET answered 200 with a body that is not JSON. -/
theorem all_records_processed_witness :
    referencesGets (cacheGeneAction netUndecodable ctxTwo).trace
        = ctxTwo.lines.map (fun l => referencesURL ctxTwo.url (geneIdOf l))
      ∧ summaries (cacheGeneAction netUndecodable ctxTwo).trace
        = ctxTwo.lines.map (fun l => geneSuccess (geneIdOf l))
      ∧ (cacheGeneAction netUndecodable ctxTwo).outcome
        = Outcome.returned (ctxTwo.scanErr.map (ExitError.mk 2)) :=
  all_records_processed netUndecodable ctxTwo rfl rfl (by decide) (by decide) (by decide)

/-- Witness of C4: the scenario line with every GET answered 200 and a page of two items. -/
theorem all_ok_walk_events_witness :
    (processLine netOK sampleBase sampleLine St.init).2 = none
      ∧ urlEvents (recordTrace netOK sampleBase sampleLine St.init)
        = ((geneURL sampleBase "DDB_G0271324"
              :: samplePage.Items.map (fun item => panelURL sampleBase item.Source))
            ++ (proteinURL sampleBase "DDB_G0271324" "DDB0302984"
              :: samplePage.Items.map (fun item => panelURL sampleBase item.Source))
            ++ [referencesURL sampleBase "DDB_G0271324"]).map (fetchSuccess "DDB_G0271324")
      ∧ (urlEvents (recordTrace netOK sampleBase sampleLine St.init)).length
        = 2 + samplePage.Items.length + samplePage.Items.length + 1
      ∧ summaries (recordTrace netOK sampleBase sampleLine St.init)
        = [geneSuccess "DDB_G0271324"] :=
  all_ok_walk_events netOK sampleBase sampleLine "DDB_G0271324" "DDB0302984" [] St.init
    samplePage samplePage [] [] (by decide) rfl rfl (fun _ _ _ _ => ⟨_, rfl⟩)

/-- Counterexample to C5: for the scenario line, with a gene page of two
panel items, the panel GETs of the gene page are issued before the
ProteinDetail GET. -/
theorem panel_gets_precede_protein_get :
    getUrls (recordTrace netOK sampleBase sampleLine St.init)
        = ["http://example.test/gene/DDB_G0271324/gene.json",
           "http://example.test/panel/summary",
           "http://example.test/panel/go",
           "http://example.test/gene/DDB_G0271324/protein/DDB0302984.json",
           "http://example.test/panel/summary",
           "http://example.test/panel/go",
           "http://example.test/gene/DDB_G0271324/references.json"]
      ∧ panelsAfterTopLevel (getKinds (recordTrace netOK sampleBase sampleLine St.init))
        = false := by
  decide

/-- Witness of C5 (amended): the scenario line with pages of two items. -/
theorem record_get_order_witness :
    requests (recordTrace netOK sampleBase sampleLine St.init)
      = (Kind.GeneDetail, geneURL sampleBase "DDB_G0271324")
          :: (netOK St.init.nget (geneURL sampleBase "DDB_G0271324")).panelItems.map
              (fun item => (Kind.PanelSource, sampleBase ++ item.Source))
        ++ (Kind.ProteinDetail, proteinURL sampleBase "DDB_G0271324" "DDB0302984")
          :: (netOK (St.init.nget + 1
                  + (netOK St.init.nget (geneURL sampleBase "DDB_G0271324")).panelItems.length)
                (proteinURL sampleBase "DDB_G0271324" "DDB0302984")).panelItems.map
              (fun item => (Kind.PanelSource, sampleBase ++ item.Source))
        ++ [(Kind.References, referencesURL sampleBase "DDB_G0271324")] :=
  record_get_order netOK sampleBase sampleLine "DDB_G0271324" "DDB0302984" [] St.init
    (by decide) (by decide)

/-- Counterexample to C7: a record whose two top-level GETs return 200 with
an undecodable body issues 3 GETs and logs 5 per-URL entries. -/
theorem decode_error_logs_second_event :
    (getUrls (recordTrace netUndecodable sampleBase "A\tT1" St.init)).length = 3
      ∧ (urlEvents (recordTrace netUndecodable sampleBase "A\tT1" St.init)).length = 5 := by
  decide

/-- C8 (code defect): after the first of two records the three bodies it
opened are still open when the loop goes on with the second record, their
closes being deferred to the end of the function; they are closed only when
`cacheGeneAction` is left. -/
theorem bodies_stay_open_across_records :
    (processLine netUndecodable sampleBase "A\tT1" St.init).2 = none
      ∧ (processLine netUndecodable sampleBase "A\tT1" St.init).1.openBodies = [0, 1, 2]
      ∧ scanLoop netUndecodable sampleBase ["A\tT1", "B\tT2"] St.init
        = scanLoop netUndecodable sampleBase ["B\tT2"]
            (processLine netUndecodable sampleBase "A\tT1" St.init).1
      ∧ (scanLoop netUndecodable sampleBase ["A\tT1", "B\tT2"] St.init).1.openBodies
        = [0, 1, 2, 3, 4, 5]
      ∧ (cacheGeneAction netUndecodable ctxTwo).openBodies = [] := by
  decide

/-- Witness of C9: the gene page decodes to two items whose GETs fail, the
protein page does not decode. -/
theorem record_urls_are_walks_witness :
    getUrls (recordTrace netMixed sampleBase sampleLine St.init)
        = walk sampleBase (geneURL sampleBase "DDB_G0271324")
            (netMixed St.init.nget (geneURL sampleBase "DDB_G0271324"))
          ++ walk sampleBase (proteinURL sampleBase "DDB_G0271324" "DDB0302984")
              (netMixed (St.init.nget + (walk sampleBase (geneURL sampleBase "DDB_G0271324")
                (netMixed St.init.nget (geneURL sampleBase "DDB_G0271324"))).length)
                (proteinURL sampleBase "DDB_G0271324" "DDB0302984"))
          ++ [referencesURL sampleBase "DDB_G0271324"]
      ∧ ∀ b ∈ decodes (recordTrace netMixed sampleBase sampleLine St.init),
          b = St.init.nget ∨ b = St.init.nget + (walk sampleBase
            (geneURL sampleBase "DDB_G0271324")
            (netMixed St.init.nget (geneURL sampleBase "DDB_G0271324"))).length :=
  record_urls_are_walks netMixed sampleBase sampleLine "DDB_G0271324" "DDB0302984" []
    St.init (by decide) (by decide) (by decide)

/-- Witness of C10: with empty arrays the run over two lines panics after the
first GET; with undecodable bodies it does not panic on `presp[0]`. -/
theorem empty_array_crashes_witness :
    ((cacheGeneAction netEmpty ctxTwo).outcome
          = Outcome.panicked (Panic.indexOutOfRange 119 0 0)
        ∧ getUrls crashTail = []
        ∧ ∃ g, events crashTail = [fetchSuccess g "http://example.test/gene/A/gene.json"])
      ∧ (cacheGeneAction netUndecodable ctxTwo).outcome
        ≠ Outcome.panicked (Panic.indexOutOfRange 119 0 0) :=
  ⟨(empty_array_crashes netEmpty ctxTwo).1 [] crashTail Kind.GeneDetail
      "http://example.test/gene/A/gene.json" (by decide) (Or.inl rfl),
    (empty_array_crashes netUndecodable ctxTwo).2 (by decide)⟩

/-- Witness of C6: the GET of the second panel of the scenario line is a
PanelSource request for `base ++ item.Source`. -/
theorem url_templates_witness :
    (Kind.PanelSource = Kind.GeneDetail
        ∧ "http://example.test/panel/go"
          = sampleBase ++ "/gene/" ++ "DDB_G0271324" ++ "/gene.json")
      ∨ (Kind.PanelSource = Kind.ProteinDetail
        ∧ "http://example.test/panel/go"
          = sampleBase ++ "/gene/" ++ "DDB_G0271324" ++ "/protein/" ++ "DDB0302984" ++ ".json")
      ∨ (Kind.PanelSource = Kind.PanelSource ∧ ∃ k0 u0 p ps item,
          Step.get k0 u0 (GetResult.resp 200 (Body.pages (p :: ps)))
              ∈ recordTrace netOK sampleBase sampleLine St.init
            ∧ k0 ≠ Kind.PanelSource ∧ item ∈ p.Items
            ∧ "http://example.test/panel/go" = sampleBase ++ item.Source)
      ∨ (Kind.PanelSource = Kind.References
        ∧ "http://example.test/panel/go"
          = sampleBase ++ "/gene/" ++ "DDB_G0271324" ++ "/references.json") :=
  (url_templates sampleBase "DDB_G0271324" "DDB0302984" "").2.2.2.2.2.2 netOK sampleLine []
    St.init (by decide) Kind.PanelSource "http://example.test/panel/go"
    (GetResult.resp 200 (Body.pages [samplePage])) (by decide)

end GeneCache
